import Mathlib

/-!
The `p2-label` command and the daemon-set reconciler of p2.

A shallow embedding of

* `bin/p2-label/main.go` (`main`, `applyLabels`, `confirm`);
* `pkg/ds/daemon_set_test.go` (`watchDSChanges`, `scheduledPods`, and the
  fixture of `TestSchedule`);
* the daemon-set reconciler, whose source file is not part of the tree and
  which is modelled from the design document.

Go strings are Lean strings, a Go `error` is its message, `nil` is `none`.
Standard input is the sequence of outcomes of successive `fmt.Scanln` calls.
A Go `map[string]string` is an association list, visited in list order by
every `range`; Go leaves the iteration order of a map unspecified, and the
theorems below quantify over every list.
-/

namespace P2

/-! ## Labels and selectors -/

/-- A Go `error`, represented by its message. -/
abbrev Err := String

/-- Modelled from the spec: the type `labels.Type` of typed entities (declared
in `pkg/labels`, which is not in the tree), a string naming the label tree. -/
abbrev LabelType := String

/-- Modelled from the spec: the type `klabels.Set`, the key/value mapping of an
entity. -/
abbrev LabelSet := List (String × String)

/-- Modelled from the spec: the record `labels.Labeled` (declared in
`pkg/labels`, which is not in the tree): `ID` is the entity id and `Labels` the
key/value mapping. -/
structure Labeled where
  LabelType : LabelType
  ID : String
  Labels : LabelSet
  deriving DecidableEq, Repr

/-- Modelled from the spec: the operators of the label selector grammar (the
Kubernetes label library is not in the tree). -/
inductive Operator where
  | Equals
  | NotEquals
  | In
  | NotIn
  | Exists
  | DoesNotExist
  deriving DecidableEq, Repr

/-- Modelled from the spec: one key-operator-values triple of a selector. -/
structure Requirement where
  key : String
  operator : Operator
  strValues : List String
  deriving DecidableEq, Repr

/-- Modelled from the spec: a selector, requirements combined by implicit
AND. -/
abbrev Selector := List Requirement

/-- Modelled from the spec: the selector `klabels.Everything()`, which matches
all entities. -/
def Everything : Selector := []

/-- Modelled from the spec: the method `Selector.Add(key, operator, values)`,
which adds one requirement. -/
def Selector.Add (s : Selector) (key : String) (op : Operator) (vals : List String) : Selector :=
  s ++ [⟨key, op, vals⟩]

/-- Modelled from the spec: the value of a key in a label set (`Set.Get`, with
`Set.Has` as `isSome`). -/
def LabelSet.get : LabelSet → String → Option String
  | [], _ => none
  | (k, v) :: rest, key => if k = key then some v else LabelSet.get rest key

/-- Modelled from the spec: the method `Requirement.Matches` of the Kubernetes
label library: `Equals` and `In` need the key present with one of the values,
`NotEquals` and `NotIn` hold when the key is absent or has another value. -/
def Requirement.Matches (r : Requirement) (ls : LabelSet) : Bool :=
  match r.operator with
  | .In | .Equals =>
    match ls.get r.key with
    | none => false
    | some v => decide (v ∈ r.strValues)
  | .NotIn | .NotEquals =>
    match ls.get r.key with
    | none => true
    | some v => !decide (v ∈ r.strValues)
  | .Exists => (ls.get r.key).isSome
  | .DoesNotExist => !(ls.get r.key).isSome

/-- Modelled from the spec: the method `Selector.Matches`: every requirement
matches. -/
def Selector.Matches (s : Selector) (ls : LabelSet) : Bool :=
  s.all (fun r => r.Matches ls)

/-! ## The label applicator interface -/

/-- Modelled from the spec: the interface `labels.Applicator` (declared in
`pkg/labels`, which is not in the tree), as far as `p2-label` uses it, over a
state `σ` of the backing store. Every call may change the state and may
fail. -/
structure Applicator (σ : Type) where
  GetLabels : LabelType → String → σ → Except Err Labeled × σ
  GetMatches : Selector → LabelType → Bool → σ → Except Err (List Labeled) × σ
  SetLabel : LabelType → String → String → String → σ → Option Err × σ
  RemoveLabel : LabelType → String → String → σ → Option Err × σ

/-- A call made on an applicator. -/
inductive Call where
  | getLabels (t : LabelType) (id : String)
  | getMatches (sel : Selector) (t : LabelType) (cached : Bool)
  | setLabel (t : LabelType) (id key value : String)
  | removeLabel (t : LabelType) (id key : String)
  deriving DecidableEq, Repr

/-- Whether a call is a `SetLabel` or a `RemoveLabel`. -/
def Call.isMutation : Call → Bool
  | .setLabel .. => true
  | .removeLabel .. => true
  | _ => false

/-- An applicator that behaves as `A` and records, in order, the calls made
on it. -/
def Applicator.traced {σ : Type} (A : Applicator σ) : Applicator (σ × List Call) where
  GetLabels := fun t id s =>
    let r := A.GetLabels t id s.1
    (r.1, (r.2, s.2 ++ [Call.getLabels t id]))
  GetMatches := fun sel t c s =>
    let r := A.GetMatches sel t c s.1
    (r.1, (r.2, s.2 ++ [Call.getMatches sel t c]))
  SetLabel := fun t id k v s =>
    let r := A.SetLabel t id k v s.1
    (r.1, (r.2, s.2 ++ [Call.setLabel t id k v]))
  RemoveLabel := fun t id k s =>
    let r := A.RemoveLabel t id k s.1
    (r.1, (r.2, s.2 ++ [Call.removeLabel t id k]))

/-! ## `bin/p2-label/main.go` -/

/-- The command-line flags declared in the `var` block of `main.go`. -/
structure Flags where
  applyAutoConfirm : Bool
  applyLabelType : String
  applySubjectSelector : String
  applyAddititiveLabels : List (String × String)
  applyDestructiveLabels : List String
  showLabelType : String
  showID : String

/-- Library functions `main.go` calls and whose source is outside the tree:
`labels.AsType`, `klabels.Parse` and `klabels.Set.String`. -/
structure Env where
  AsType : String → Except Err LabelType
  Parse : String → Except Err Selector
  SetString : LabelSet → String

/-- The process state of a run of `p2-label`: the applicator's store, the
outcomes of the `fmt.Scanln` calls still to come (`none` is a failed scan),
what was written to the two output streams, and the global `autoConfirm`. -/
structure Proc (σ : Type) where
  app : σ
  stdin : List (Option String)
  stdout : List String
  stderr : List String
  autoConfirm : Bool

/-- Write to standard output (`fmt.Printf`). -/
def Proc.print {σ : Type} (p : Proc σ) (s : String) : Proc σ :=
  { p with stdout := p.stdout ++ [s] }

/-- Write to standard error (`fmt.Fprintf(os.Stderr, ...)`). -/
def Proc.eprint {σ : Type} (p : Proc σ) (s : String) : Proc σ :=
  { p with stderr := p.stderr ++ [s] }

/-- The function `strings.ToLower`, on the letters `A` to `Z`; no character
outside that range is mapped by Go to a letter of `y`, `yes`. -/
def ToLower (s : String) : String :=
  ⟨s.data.map Char.toLower⟩

/-- White space as `strings.TrimSpace` sees it (`unicode.IsSpace`). -/
def isSpace (c : Char) : Bool :=
  c = ' ' || c = '\t' || c = '\n' || c = '\x0b' || c = '\x0c' || c = '\r' ||
  c = '\u0085' || c = '\u00a0' || c = '\u1680' ||
  (decide (0x2000 ≤ c.toNat) && decide (c.toNat ≤ 0x200a)) ||
  c = '\u2028' || c = '\u2029' || c = '\u202f' || c = '\u205f' || c = '\u3000'

/-- The function `strings.TrimSpace`. -/
def TrimSpace (s : String) : String :=
  ⟨((s.data.dropWhile isSpace).reverse.dropWhile isSpace).reverse⟩

/-- One call of `fmt.Scanln(&input)`: the next outcome of standard input, an
error at the end of the input. -/
def Scanln : List (Option String) → Option String × List (Option String)
  | [] => (none, [])
  | r :: rest => (r, rest)

/-- The function `confirm` of `main.go`. -/
def confirm {σ : Type} (message : String) (p : Proc σ) : Bool × Proc σ :=
  if p.autoConfirm then (true, p)
  else
    let p1 := p.print ("Confirm your intention to " ++ message ++ "\n")
    let p2 := p1.print "Type \"y\" to confirm [n]: "
    let r := Scanln p2.stdin
    let p3 := { p2 with stdin := r.2 }
    match r.1 with
    | none => (false, p3)
    | some input =>
      let resp := TrimSpace (ToLower input)
      (resp = "y" || resp = "yes", p3)

/-- The loop `for k, v := range additiveLabels` of `applyLabels`. -/
def setLabels {σ : Type} (A : Applicator σ) (labelType : LabelType) (entityID : String) :
    List (String × String) → Proc σ → Proc σ
  | [], p => p
  | (k, v) :: rest, p =>
    let r := A.SetLabel labelType entityID k v p.app
    let p1 := { p with app := r.2 }
    let p2 := match r.1 with
      | some err => p1.eprint ("Error while appyling label. k/v: " ++ k ++ "/" ++ v ++ ".\n" ++ err ++ "\n")
      | none => p1
    setLabels A labelType entityID rest p2

/-- The loop `for _, key := range destructiveKeys` of `applyLabels`. -/
def removeLabels {σ : Type} (A : Applicator σ) (labelType : LabelType) (entityID : String) :
    List String → Proc σ → Proc σ
  | [], p => p
  | key :: rest, p =>
    let r := A.RemoveLabel labelType entityID key p.app
    let p1 := { p with app := r.2 }
    let p2 := match r.1 with
      | some err => p1.eprint ("Error while destroying label with key: " ++ key ++ ".\n" ++ err ++ "\n")
      | none => p1
    removeLabels A labelType entityID rest p2

/-- The function `applyLabels` of `main.go`. Its result is the returned
`error`; both `return` statements of the source return `nil`. -/
def applyLabels {σ : Type} (A : Applicator σ) (entityID : String) (labelType : LabelType)
    (additiveLabels : List (String × String)) (destructiveKeys : List String)
    (p : Proc σ) : Option Err × Proc σ :=
  let c := confirm ("mutate the labels for " ++ labelType ++ "/" ++ entityID) p
  if !c.1 then (none, c.2)
  else
    let p1 := if additiveLabels.length > 0
      then setLabels A labelType entityID additiveLabels c.2 else c.2
    let p2 := if destructiveKeys.length > 0
      then removeLabels A labelType entityID destructiveKeys p1 else p1
    (none, p2)

/-- Rendering of a `[]string` under the verb `%s`. -/
def showStrings (l : List String) : String :=
  "[" ++ " ".intercalate l ++ "]"

/-- The loop `for _, match := range matches` of `main`, threading
`exitCode`. -/
def applyLoop {σ : Type} (env : Env) (A : Applicator σ) (labelType : LabelType)
    (additiveLabels : List (String × String)) (destructiveKeys : List String) :
    List Labeled → Nat → Proc σ → Nat × Proc σ
  | [], exitCode, p => (exitCode, p)
  | m :: rest, exitCode, p =>
    let entityID := m.ID
    let r := applyLabels A entityID labelType additiveLabels destructiveKeys p
    let (exitCode1, p1) := match r.1 with
      | some err => (1, r.2.print ("Encountered err during labeling, " ++ err))
      | none => (exitCode, r.2)
    let g := A.GetLabels labelType entityID p1.app
    let p2 := { p1 with app := g.2 }
    match g.1 with
    | .error err =>
      applyLoop env A labelType additiveLabels destructiveKeys rest 1
        (p2.eprint ("Got error while querying labels. " ++ err ++ "\n"))
    | .ok labelsForEntity =>
      applyLoop env A labelType additiveLabels destructiveKeys rest exitCode1
        (p2.print (labelType ++ "/" ++ entityID ++ ": " ++ env.SetString labelsForEntity.Labels ++ "\n"))

/-- The names of the two subcommands. -/
def CmdApply : String := "apply"

/-- The name of the `show` subcommand. -/
def CmdShow : String := "show"

/-- The `case CmdShow` branch of `main`; the result is the exit code of the
process (the successful path returns from `main`, which exits with 0). -/
def mainShow {σ : Type} (env : Env) (A : Applicator σ) (f : Flags) (p : Proc σ) : Nat × Proc σ :=
  match env.AsType f.showLabelType with
  | .error err =>
    (1, p.eprint ("Error while parsing label type. Check the commandline.\n" ++ err ++ "\n"))
  | .ok labelType =>
    let g := A.GetLabels labelType f.showID p.app
    let p1 := { p with app := g.2 }
    match g.1 with
    | .error err => (1, p1.eprint ("Got error while querying labels. " ++ err ++ "\n"))
    | .ok labelsForEntity =>
      (0, p1.print (labelType ++ "/" ++ f.showID ++ ": " ++ env.SetString labelsForEntity.Labels ++ "\n"))

/-- The `case CmdApply` branch of `main`. -/
def mainApply {σ : Type} (env : Env) (A : Applicator σ) (f : Flags) (p0 : Proc σ) : Nat × Proc σ :=
  let p := { p0 with autoConfirm := f.applyAutoConfirm }
  match env.AsType f.applyLabelType with
  | .error _ =>
    (1, p.eprint ("Unrecognized type " ++ f.applyLabelType ++
      ". Check the commandline and documentation.\nhttps://godoc.org/github.com/square/p2/pkg/labels#pkg-constants\n"))
  | .ok labelType =>
    match env.Parse f.applySubjectSelector with
    | .error err =>
      (0, p.eprint ("Error while parsing subject label. Check the syntax.\n" ++ err ++ "\n"))
    | .ok subject =>
      let additiveLabels := f.applyAddititiveLabels
      let destructiveKeys := f.applyDestructiveLabels
      let cachedMatch := false
      let r := A.GetMatches subject labelType cachedMatch p.app
      let p1 := { p with app := r.2 }
      match r.1 with
      | .error err =>
        (1, p1.eprint ("Error while finding label matches. Check the syntax.\n" ++ err ++ "\n"))
      | .ok matched =>
        let p2 := if additiveLabels.length > 0
          then p1.print ("labels to be added: " ++ env.SetString additiveLabels ++ "\n") else p1
        let p3 := if destructiveKeys.length > 0
          then p2.print ("labels to be removed: " ++ showStrings destructiveKeys ++ "\n") else p2
        applyLoop env A labelType additiveLabels destructiveKeys matched 0 p3

/-- The function `main` of `main.go`, from the parsed command `cmd` and
flags: the exit code of the process and its final state. -/
def main {σ : Type} (env : Env) (A : Applicator σ) (cmd : String) (f : Flags)
    (app : σ) (stdin : List (Option String)) : Nat × Proc σ :=
  let p : Proc σ := ⟨app, stdin, [], [], false⟩
  if cmd = CmdShow then mainShow env A f p
  else if cmd = CmdApply then mainApply env A f p
  else (0, p)

/-! ## An in-memory label store -/

/-- Modelled from the spec: one label of the in-memory store: entity
`(labelType, id)` carries `key = value`. -/
structure Entry where
  labelType : LabelType
  id : String
  key : String
  value : String
  deriving DecidableEq, Repr

/-- Modelled from the spec: the label store behind `labels.NewFakeApplicator`
(its source is not in the tree), a key/value label store over typed entities
supporting point get, selector match, set and remove. An entity is known to
the store while it carries at least one label. -/
abbrev FakeStore := List Entry

/-- Modelled from the spec: whether an entry belongs to entity `(t, id)`. -/
def Entry.isOf (e : Entry) (t : LabelType) (id : String) : Bool :=
  e.labelType = t && e.id = id

/-- Modelled from the spec: whether an entry is the label `key` of entity
`(t, id)`. -/
def Entry.isAt (e : Entry) (t : LabelType) (id key : String) : Bool :=
  e.labelType = t && e.id = id && e.key = key

/-- Modelled from the spec: the label set of an entity (point get). -/
def FakeStore.labelsOf (s : FakeStore) (t : LabelType) (id : String) : LabelSet :=
  (s.filter (fun e => e.isOf t id)).map (fun e => (e.key, e.value))

/-- Modelled from the spec: the value of one label of an entity. -/
def FakeStore.lookup (s : FakeStore) (t : LabelType) (id key : String) : Option String :=
  (s.labelsOf t id).get key

/-- Modelled from the spec: the entities of a type known to the store, each
once. -/
def FakeStore.ids (s : FakeStore) (t : LabelType) : List String :=
  ((s.filter (fun e => e.labelType = t)).map (fun e => e.id)).dedup

/-- Modelled from the spec: the store after `SetLabel`: the label is replaced or
added. -/
def FakeStore.set (s : FakeStore) (t : LabelType) (id key value : String) : FakeStore :=
  ⟨t, id, key, value⟩ :: s.filter (fun e => !e.isAt t id key)

/-- Modelled from the spec: the store after `RemoveLabel`: removing an absent
label changes nothing. -/
def FakeStore.remove (s : FakeStore) (t : LabelType) (id key : String) : FakeStore :=
  s.filter (fun e => !e.isAt t id key)

/-- Modelled from the spec: the result of `GetMatches`: the entities of the type
whose labels satisfy the selector. -/
def FakeStore.matching (s : FakeStore) (sel : Selector) (t : LabelType) : List Labeled :=
  ((s.ids t).filter (fun id => sel.Matches (s.labelsOf t id))).map
    (fun id => ⟨t, id, s.labelsOf t id⟩)

/-- Modelled from the spec: the applicator over the in-memory store, on which
every call succeeds. -/
def FakeApplicator : Applicator FakeStore where
  GetLabels := fun t id s => (.ok ⟨t, id, s.labelsOf t id⟩, s)
  GetMatches := fun sel t _ s => (.ok (s.matching sel t), s)
  SetLabel := fun t id k v s => (none, s.set t id k v)
  RemoveLabel := fun t id k s => (none, s.remove t id k)

/-- An applicator over the in-memory store whose reads succeed and whose
`SetLabel` and `RemoveLabel` calls are refused with an error. -/
def ReadOnlyApplicator : Applicator FakeStore where
  GetLabels := fun t id s => (.ok ⟨t, id, s.labelsOf t id⟩, s)
  GetMatches := fun sel t _ s => (.ok (s.matching sel t), s)
  SetLabel := fun _ _ _ _ s => (some "permission denied", s)
  RemoveLabel := fun _ _ _ s => (some "permission denied", s)

/-- Modelled from the spec: the label type `labels.NODE`. -/
def NODE : LabelType := "node"

/-- Modelled from the spec: the label type `labels.POD`. -/
def POD : LabelType := "pod"

/-- Modelled from the spec: `labels.AsType` (its source is not in the tree),
the validated accessor from user-facing type names to label types; this
instance knows the two types the spec names. -/
def sampleAsType (v : String) : Except Err LabelType :=
  if v = NODE then .ok NODE
  else if v = POD then .ok POD
  else .error ("Unrecognized type " ++ v)

/-- Split a list of characters at every occurrence of `c`. -/
def splitAt (c : Char) : List Char → List (List Char)
  | [] => [[]]
  | x :: xs =>
    if x = c then [] :: splitAt c xs
    else match splitAt c xs with
      | [] => [[x]]
      | h :: t => (x :: h) :: t

/-- Read `key=value`. -/
def parseRequirement (cs : List Char) : Except Err Requirement :=
  match splitAt '=' cs with
  | [k, v] =>
    if k.isEmpty then .error "found '=', expected: identifier"
    else .ok ⟨⟨k⟩, .Equals, [⟨v⟩]⟩
  | _ => .error "expected: key=value"

/-- Read a comma-separated sequence of requirements. -/
def parseRequirements : List (List Char) → Except Err Selector
  | [] => .ok []
  | cs :: rest =>
    match parseRequirement cs with
    | .error e => .error e
    | .ok r =>
      match parseRequirements rest with
      | .error e => .error e
      | .ok rs => .ok (r :: rs)

/-- Modelled from the spec: `klabels.Parse` restricted to the equality
fragment of the selector grammar, `k1=v1,k2=v2,...`; the empty string is the
selector that matches everything. -/
def sampleParse (s : String) : Except Err Selector :=
  if s.data.isEmpty then .ok Everything else parseRequirements (splitAt ',' s.data)

/-- Rendering `k1=v1,k2=v2` of a label set, in the order of the list. -/
def sampleSetString (ls : LabelSet) : String :=
  ",".intercalate (ls.map (fun kv => kv.1 ++ "=" ++ kv.2))

/-- An environment for concrete runs. -/
def sampleEnv : Env := ⟨sampleAsType, sampleParse, sampleSetString⟩

/-- The `SetLabel` calls one entity receives, one per pair. -/
def setCalls (t : LabelType) (id : String) (add : List (String × String)) : List Call :=
  add.map (fun kv => Call.setLabel t id kv.1 kv.2)

/-- The `RemoveLabel` calls one entity receives, one per key. -/
def removeCalls (t : LabelType) (id : String) (del : List String) : List Call :=
  del.map (fun k => Call.removeLabel t id k)

/-- An outcome of `fmt.Scanln` that `confirm` accepts. -/
def answersYes : Option String → Bool
  | none => false
  | some input => TrimSpace (ToLower input) = "y" || TrimSpace (ToLower input) = "yes"

/-- Confirmation is granted for `n` entities. -/
def Granted (auto : Bool) (stdin : List (Option String)) (n : Nat) : Prop :=
  auto = true ∨ (n ≤ stdin.length ∧ ∀ r ∈ stdin.take n, answersYes r = true)

/-- The calls one matched entity receives when its mutation is confirmed. -/
def entityCalls (t : LabelType) (add : List (String × String)) (del : List String)
    (m : Labeled) : List Call :=
  setCalls t m.ID add ++ removeCalls t m.ID del ++ [Call.getLabels t m.ID]

/-- Flags of a run `p2-label apply -t node -s q=good -a foo=bar -d zap`. -/
def demoFlags : Flags := ⟨false, "node", "q=good", [("foo", "bar")], ["zap"], "node", "n1"⟩

/-- A store with two nodes matching `q=good` and one that does not. -/
def demoStore : FakeStore :=
  [⟨"node", "n1", "q", "good"⟩, ⟨"node", "n2", "q", "bad"⟩, ⟨"node", "n1", "zap", "1"⟩,
   ⟨"node", "n3", "q", "good"⟩]

/-- A process about to ask for confirmation, with `Yes` waiting on standard
input. -/
def demoAsk : Proc (FakeStore × List Call) := ⟨(demoStore, []), [some "Yes"], [], [], false⟩

/-- A process about to ask for confirmation, with `no` waiting on standard
input. -/
def demoRefuse : Proc (FakeStore × List Call) := ⟨(demoStore, []), [some "no"], [], [], false⟩

/-- A process run with `--yes`. -/
def demoAuto : Proc (FakeStore × List Call) := ⟨(demoStore, []), [], [], [], true⟩

/-- The call `applyLabels` for node `n1` with `--yes --add foo=bar --add zap=2
--delete zap` on the demonstration store. -/
def demoRun : Option Err × Proc FakeStore :=
  applyLabels FakeApplicator "n1" "node" [("foo", "bar"), ("zap", "2")] ["zap"]
    ⟨demoStore, [], [], [], true⟩

/-! ## `pkg/ds/daemon_set_test.go`: the change watcher -/

/-- Modelled from the spec: a pod manifest (declared in `pkg/manifest`, which is
not in the tree): its `ID()` and its opaque payload. -/
structure Manifest where
  id : String
  payload : String
  deriving DecidableEq, Repr

/-- Modelled from the spec: the record `ds_fields.DaemonSet` (declared in
`pkg/ds/fields`, which is not in the tree). -/
structure DaemonSet where
  ID : String
  PodID : String
  NodeSelector : Selector
  MinHealth : Nat
  ClusterName : String
  Disabled : Bool
  Manifest : Manifest
  deriving DecidableEq, Repr

/-- Modelled from the spec: the record `dsstore.WatchedDaemonSets` (declared in
`pkg/kp/dsstore`, which is not in the tree): one batch of the watch stream. -/
structure WatchedDaemonSets where
  Created : List DaemonSet
  Updated : List DaemonSet
  Deleted : List DaemonSet
  Err : Option Err
  deriving DecidableEq, Repr

/-- What the goroutine of `watchDSChanges` does on its three output channels:
a send on `errCh`, a send on `updatedCh`, a send on `deletedCh`, and the
deferred `close(errCh)`. -/
inductive Signal where
  | error (err : Err)
  | updated (ds : DaemonSet)
  | deleted
  | closed
  deriving DecidableEq, Repr

/-- The loop `for _, changedDS := range watched.Updated` of `watchDSChanges`,
for the daemon set with id `dsID`. -/
def sendUpdated (dsID : String) : List DaemonSet → List Signal
  | [] => []
  | changedDS :: rest =>
    if dsID = changedDS.ID then Signal.updated changedDS :: sendUpdated dsID rest
    else sendUpdated dsID rest

/-- The loop `for _, changedDS := range watched.Deleted` of
`watchDSChanges`. -/
def sendDeleted (dsID : String) : List DaemonSet → List Signal
  | [] => []
  | changedDS :: rest =>
    if dsID = changedDS.ID then Signal.deleted :: sendDeleted dsID rest
    else sendDeleted dsID rest

/-- One iteration of the `for` loop of `watchDSChanges` after a batch was
received from `changesCh`. -/
def watchBatch (dsID : String) (watched : WatchedDaemonSets) : List Signal :=
  (match watched.Err with
    | some err => [Signal.error ("Error occured when watching daemon sets: " ++ err)]
    | none => []) ++
  sendUpdated dsID watched.Updated ++ sendDeleted dsID watched.Deleted

/-- The goroutine of `watchDSChanges`. Each element of the input is what one
`select` received: `some watched` from `changesCh`, `none` from `quitCh`. -/
def watchDSChanges (dsID : String) : List (Option WatchedDaemonSets) → List Signal
  | [] => []
  | none :: _ => [Signal.closed]
  | some watched :: rest => watchBatch dsID watched ++ watchDSChanges dsID rest

/-! ## The daemon-set reconciler -/

/-- Modelled from the spec: the well-known pod label key `DSIDLabel` (the
constant is declared in the reconciler's source, which is not in the tree). -/
def DSIDLabel : String := "daemon_set_id"

/-- The selector built by `scheduledPods`:
`klabels.Everything().Add(DSIDLabel, klabels.EqualsOperator, []string{ds.ID().String()})`. -/
def dsSelector (dsID : String) : Selector :=
  Everything.Add DSIDLabel .Equals [dsID]

/-- Modelled from the spec: the synthetic pod id `"<NodeID>/<PodID>"`. -/
def podLabelID (node podID : String) : String :=
  node ++ "/" ++ podID

/-- Modelled from the spec: `strip-podID`, the node of a pod id of the form
`"<NodeID>/<PodID>"`: the id without its last `1 + len(PodID)` characters. -/
def stripPodID (podID id : String) : String :=
  ⟨id.data.take (id.data.length - (podID.data.length + 1))⟩

/-- Modelled from the spec: the result record of `AllPods`, with its path and
manifest. -/
structure PodResult where
  Path : String
  Manifest : Manifest
  deriving DecidableEq, Repr

/-- Modelled from the spec: the intent tree of the pod store (the store behind
`kptest.NewFakePodStore` is not in the tree): entries
`(node, pod-id) → manifest`. -/
abbrev IntentStore := List ((String × String) × Manifest)

/-- Modelled from the spec: whether an intent entry has key `(node, podID)`. -/
def intentAt (node podID : String) (e : (String × String) × Manifest) : Bool :=
  e.1.1 = node && e.1.2 = podID

/-- Modelled from the spec: the store after `SetPod(INTENT_TREE, node, manifest)`;
the pod id of the key is the `ID()` of the manifest. -/
def IntentStore.SetPod (s : IntentStore) (node : String) (m : Manifest) : IntentStore :=
  ((node, m.id), m) :: s.filter (fun e => !intentAt node m.id e)

/-- Modelled from the spec: the store after `DeletePod(INTENT_TREE, node, podID)`;
deleting an absent entry changes nothing. -/
def IntentStore.DeletePod (s : IntentStore) (node podID : String) : IntentStore :=
  s.filter (fun e => !intentAt node podID e)

/-- Modelled from the spec: the manifest stored for `(node, podID)`. -/
def IntentStore.find (s : IntentStore) (node podID : String) : Option Manifest :=
  (List.find? (intentAt node podID) s).map Prod.snd

/-- Modelled from the spec: the result of `AllPods(INTENT_TREE)`, with the path
rendering `intent/<node>/<podID>`. -/
def IntentStore.AllPods (s : IntentStore) : List PodResult :=
  s.map (fun e => ⟨"intent/" ++ e.1.1 ++ "/" ++ e.1.2, e.2⟩)

/-- Modelled from the spec: the external stores the reconciler works on. The
calls made on them are numbered from `clock`, and call number `i` fails, leaving
the stores as they are, when `faults i` holds. -/
structure World where
  labels : FakeStore
  intent : IntentStore
  clock : Nat
  faults : Nat → Bool

/-- Modelled from the spec: account for one call on a store: whether it fails,
and the world with the clock advanced. -/
def World.call (w : World) : Bool × World :=
  (w.faults w.clock, { w with clock := w.clock + 1 })

/-- Modelled from the spec: the call
`applicator.GetMatches(selector, type, useCache=false)`; `none` is a failure. -/
def World.GetMatches (w : World) (sel : Selector) (t : LabelType) :
    Option (List Labeled) × World :=
  let c := w.call
  if c.1 then (none, c.2) else (some (w.labels.matching sel t), c.2)

/-- Modelled from the spec: the call `applicator.SetLabel`; the Boolean tells
whether it failed. -/
def World.SetLabel (w : World) (t : LabelType) (id key value : String) : Bool × World :=
  let c := w.call
  if c.1 then (true, c.2) else (false, { c.2 with labels := w.labels.set t id key value })

/-- Modelled from the spec: the call `applicator.RemoveLabel`. -/
def World.RemoveLabel (w : World) (t : LabelType) (id key : String) : Bool × World :=
  let c := w.call
  if c.1 then (true, c.2) else (false, { c.2 with labels := w.labels.remove t id key })

/-- Modelled from the spec: the call `SetPod(INTENT_TREE, node, manifest)`. -/
def World.SetPod (w : World) (node : String) (m : Manifest) : Bool × World :=
  let c := w.call
  if c.1 then (true, c.2) else (false, { c.2 with intent := w.intent.SetPod node m })

/-- Modelled from the spec: the call `DeletePod(INTENT_TREE, node, podID)`. -/
def World.DeletePod (w : World) (node podID : String) : Bool × World :=
  let c := w.call
  if c.1 then (true, c.2) else (false, { c.2 with intent := w.intent.DeletePod node podID })

/-- The function `scheduledPods` of the test: the pods labelled
`DSIDLabel == ID`. -/
def scheduledPods (dsID : String) (w : World) : List Labeled :=
  w.labels.matching (dsSelector dsID) POD

/-- Modelled from the spec: the states of the reconciler's state machine. -/
inductive Phase where
  | Active
  | Disabled
  | TerminalTearDown
  | Exited
  deriving DecidableEq, Repr

/-- Modelled from the spec: the reconciler, which owns one daemon-set record
in memory. -/
structure Reconciler where
  ds : DaemonSet
  phase : Phase
  deriving DecidableEq, Repr

/-- Modelled from the spec: step 4 of the algorithm for one node: write the
intent entry, then attach the pod label. A failed call is reported and the rest
of the operation is skipped. -/
def schedule (ds : DaemonSet) (acc : World × List Err) (node : String) : World × List Err :=
  let r1 := acc.1.SetPod node ds.Manifest
  if r1.1 then (r1.2, acc.2 ++ ["TransientStoreError: SetPod " ++ node])
  else
    let r2 := r1.2.SetLabel POD (podLabelID node ds.PodID) DSIDLabel ds.ID
    if r2.1 then (r2.2, acc.2 ++ ["TransientStoreError: SetLabel " ++ node])
    else (r2.2, acc.2)

/-- Modelled from the spec: step 5 of the algorithm for one node: delete the
intent entry, then remove the pod label. -/
def unschedule (ds : DaemonSet) (acc : World × List Err) (node : String) : World × List Err :=
  let r1 := acc.1.DeletePod node ds.PodID
  if r1.1 then (r1.2, acc.2 ++ ["TransientStoreError: DeletePod " ++ node])
  else
    let r2 := r1.2.RemoveLabel POD (podLabelID node ds.PodID) DSIDLabel
    if r2.1 then (r2.2, acc.2 ++ ["TransientStoreError: RemoveLabel " ++ node])
    else (r2.2, acc.2)

/-- Modelled from the spec: step 1 of the algorithm: the nodes matching
`NodeSelector` if the reconciler is neither disabled nor in terminal
tear-down, the empty set otherwise. `none` is a failed read. -/
def desiredNodes (r : Reconciler) (w : World) : Option (List String) × World :=
  if r.phase = .Active then
    let g := w.GetMatches r.ds.NodeSelector NODE
    (g.1.map (fun ms => ms.map (fun l => l.ID)), g.2)
  else (some [], w)

/-- Modelled from the spec: the row `Active → Disabled` of the state-machine
table: while the reconciler is disabled the desired set is frozen at the
current set, so that nothing is scheduled and nothing unscheduled. -/
def frozen (r : Reconciler) (desired currentNodes : List String) : List String :=
  if r.phase = .Disabled then currentNodes else desired

/-- Modelled from the spec: the outcome of one tick: the world, the errors sent
on the error channel, and whether the loop exits (step 6). -/
structure TickResult where
  world : World
  errors : List Err
  exit : Bool

/-- Modelled from the spec: one pass of the reconciliation loop, steps 1 to 6
of the algorithm. A failure to read `desired` or `current` aborts the tick. -/
def tick (r : Reconciler) (w : World) : TickResult :=
  let d := desiredNodes r w
  match d.1 with
  | none => ⟨d.2, ["TransientStoreError: GetMatches desired"], false⟩
  | some matched =>
    let c := d.2.GetMatches (dsSelector r.ds.ID) POD
    match c.1 with
    | none => ⟨c.2, ["TransientStoreError: GetMatches current"], false⟩
    | some current =>
      let currentNodes := current.map (fun l => stripPodID r.ds.PodID l.ID)
      let desired := frozen r matched currentNodes
      let toAdd := desired.filter (fun n => !currentNodes.contains n)
      let toRemove := currentNodes.filter (fun n => !desired.contains n)
      let a := toAdd.foldl (schedule r.ds) (c.2, [])
      let b := toRemove.foldl (unschedule r.ds) a
      ⟨b.1, b.2, r.phase = .TerminalTearDown && toRemove.isEmpty⟩

/-- Modelled from the spec: the drain loop of terminal tear-down: tick until a
tick finds nothing left to remove, for at most `fuel` ticks. The Boolean tells
whether the loop exited. -/
def drain (r : Reconciler) : Nat → World → List Err → Bool × World × List Err
  | 0, w, errs => (false, w, errs)
  | fuel + 1, w, errs =>
    let t := tick r w
    if t.exit then (true, t.world, errs ++ t.errors)
    else drain r fuel t.world (errs ++ t.errors)

/-- Modelled from the spec: the inputs of the reconciler's loop. -/
inductive Event where
  | updated (ds : DaemonSet)
  | deleted
  | nodesChanged
  | quit
  deriving DecidableEq, Repr

/-- Modelled from the spec: what handling one event yields: the reconciler, the
world and the errors sent. -/
structure StepResult where
  reconciler : Reconciler
  world : World
  errors : List Err

/-- Modelled from the spec: the reconciler handling one event, by the rows of
the state-machine table. An update whose manifest id differs from its pod id is
refused and the previous record kept; tear-down gets `fuel` ticks. -/
def step (fuel : Nat) (r : Reconciler) (w : World) : Event → StepResult
  | .updated newDS =>
    if newDS.Manifest.id ≠ newDS.PodID then
      ⟨r, w, ["InvariantViolation: manifest id differs from pod id"]⟩
    else
      let r1 : Reconciler := ⟨newDS, if newDS.Disabled then .Disabled else .Active⟩
      let t := tick r1 w
      ⟨r1, t.world, t.errors⟩
  | .nodesChanged =>
    let t := tick r w
    ⟨r, t.world, t.errors⟩
  | .deleted =>
    let r1 : Reconciler := { r with phase := .TerminalTearDown }
    let d := drain r1 fuel w []
    ⟨if d.1 then { r1 with phase := .Exited } else r1, d.2.1, d.2.2⟩
  | .quit => ⟨{ r with phase := .Exited }, w, []⟩

/-- Modelled from the spec: the constructor `New`: the reconciler starts
active or disabled as its initial record says. -/
def New (dsData : DaemonSet) : Reconciler :=
  ⟨dsData, if dsData.Disabled then .Disabled else .Active⟩

/-- No call on the stores fails. -/
def World.NoFaults (w : World) : Prop :=
  ∀ i, w.faults i = false

/-- The pod labels and intent entries of the world are those of a reconciler
for `ds`: every pod carrying `DSIDLabel == ID` has an id of the form
`"<node>/<PodID>"`, and a node has an intent entry for `PodID` exactly when its
pod carries the label (invariant 1 of the spec). -/
def World.AuthoredBy (w : World) (ds : DaemonSet) : Prop :=
  (∀ id, w.labels.lookup POD id DSIDLabel = some ds.ID →
    id = podLabelID (stripPodID ds.PodID id) ds.PodID) ∧
  (∀ n, (w.intent.find n ds.PodID).isSome ↔
    w.labels.lookup POD (podLabelID n ds.PodID) DSIDLabel = some ds.ID)

/-- The intent store is a map: no key occurs twice. -/
def IntentStore.WellFormed (s : IntentStore) : Prop :=
  (s.map Prod.fst).Nodup

/-- The number of intent entries with key `(node, podID)`. -/
def IntentStore.count (s : IntentStore) (node podID : String) : Nat :=
  (s.filter (intentAt node podID)).length

/-- The daemon set of `TestSchedule`: pod `testPod` on the nodes with
`nodeQuality=good`. -/
def testDS : DaemonSet :=
  ⟨"ds-1", "testPod", Everything.Add "nodeQuality" .Equals ["good"], 0, "some_name", false,
    ⟨"testPod", ""⟩⟩

/-- The fixture of `TestSchedule` at line 165: `node1` labelled
`nodeQuality=bad`, `node2` labelled `nodeQuality=good`, nothing scheduled. -/
def testWorld : World :=
  ⟨(FakeStore.set [] NODE "node1" "nodeQuality" "bad").set NODE "node2" "nodeQuality" "good",
    [], 0, fun _ => false⟩

/-- The world after a node was scheduled by two successful calls. -/
def World.scheduled (ds : DaemonSet) (w : World) (node : String) : World :=
  { w with
    labels := w.labels.set POD (podLabelID node ds.PodID) DSIDLabel ds.ID
    intent := w.intent.SetPod node ds.Manifest
    clock := w.clock + 1 + 1 }

/-- The world after a node was unscheduled by two successful calls. -/
def World.unscheduled (ds : DaemonSet) (w : World) (node : String) : World :=
  { w with
    labels := w.labels.remove POD (podLabelID node ds.PodID) DSIDLabel
    intent := w.intent.DeletePod node ds.PodID
    clock := w.clock + 1 + 1 }

/-- The nodes the reconciler has scheduled, as step 2 of the algorithm reads
them from the pod-label index. -/
def currentNodes (ds : DaemonSet) (w : World) : List String :=
  (scheduledPods ds.ID w).map (fun l => stripPodID ds.PodID l.ID)

/-- The nodes matching the selector of the daemon set. -/
def matchingNodes (ds : DaemonSet) (w : World) : List String :=
  (w.labels.matching ds.NodeSelector NODE).map (fun l => l.ID)

/-- The desired set a tick works with, from steps 1 and 2 of the algorithm and
the state-machine table, when both reads succeed. -/
def desiredSet (r : Reconciler) (w : World) : List String :=
  frozen r (if r.phase = .Active then matchingNodes r.ds w else []) (currentNodes r.ds w)

/-- The node labels of `TestSchedule` at line 233: `node1` and ten more nodes
with `nodeQuality=bad`, `node2` and ten more with `nodeQuality=good`, and
`nodeOk` with `nodeQuality=good` and `cherry=pick`. -/
def fleet : FakeStore :=
  [⟨NODE, "node1", "nodeQuality", "bad"⟩,
   ⟨NODE, "node2", "nodeQuality", "good"⟩,
   ⟨NODE, "good_node0", "nodeQuality", "good"⟩,
   ⟨NODE, "good_node1", "nodeQuality", "good"⟩,
   ⟨NODE, "good_node2", "nodeQuality", "good"⟩,
   ⟨NODE, "good_node3", "nodeQuality", "good"⟩,
   ⟨NODE, "good_node4", "nodeQuality", "good"⟩,
   ⟨NODE, "good_node5", "nodeQuality", "good"⟩,
   ⟨NODE, "good_node6", "nodeQuality", "good"⟩,
   ⟨NODE, "good_node7", "nodeQuality", "good"⟩,
   ⟨NODE, "good_node8", "nodeQuality", "good"⟩,
   ⟨NODE, "good_node9", "nodeQuality", "good"⟩,
   ⟨NODE, "bad_node0", "nodeQuality", "bad"⟩,
   ⟨NODE, "bad_node1", "nodeQuality", "bad"⟩,
   ⟨NODE, "bad_node2", "nodeQuality", "bad"⟩,
   ⟨NODE, "bad_node3", "nodeQuality", "bad"⟩,
   ⟨NODE, "bad_node4", "nodeQuality", "bad"⟩,
   ⟨NODE, "bad_node5", "nodeQuality", "bad"⟩,
   ⟨NODE, "bad_node6", "nodeQuality", "bad"⟩,
   ⟨NODE, "bad_node7", "nodeQuality", "bad"⟩,
   ⟨NODE, "bad_node8", "nodeQuality", "bad"⟩,
   ⟨NODE, "bad_node9", "nodeQuality", "bad"⟩,
   ⟨NODE, "nodeOk", "nodeQuality", "good"⟩,
   ⟨NODE, "nodeOk", "cherry", "pick"⟩]

/-- The fleet with nothing scheduled. -/
def fleetWorld : World := ⟨fleet, [], 0, fun _ => false⟩

/-- The daemon set of `TestSchedule` after the mutation at line 250: selector
`nodeQuality=good, cherry=pick`. -/
def cherryDS : DaemonSet :=
  { testDS with
    NodeSelector := (Everything.Add "nodeQuality" .Equals ["good"]).Add "cherry" .Equals ["pick"] }

/-- The daemon set of `TestSchedule` after the mutation at line 275: disabled,
selector `nodeQuality=good`. -/
def disabledDS : DaemonSet :=
  { testDS with Disabled := true }

/-- The daemon set of `TestSchedule` after the mutation at line 289: enabled,
selector `Everything`. -/
def everywhereDS : DaemonSet :=
  { testDS with NodeSelector := Everything }

/-- The world of `TestSchedule` at line 264: only `nodeOk` is scheduled. -/
def cherryWorld : World := (tick ⟨cherryDS, .Active⟩ fleetWorld).world

/-- The world of `TestSchedule` at line 294: all 23 nodes are scheduled. -/
def everywhereWorld : World := (tick ⟨everywhereDS, .Active⟩ fleetWorld).world
/-! ## Theorems on `p2-label` -/

section
variable {σ : Type}

theorem confirm_auto (msg : String) (p : Proc σ) (h : p.autoConfirm = true) :
    confirm msg p = (true, p) := by
  simp [confirm, h]

theorem confirm_ask_fst (msg : String) (p : Proc σ) (h : p.autoConfirm = false) :
    (confirm msg p).1 = answersYes (Scanln p.stdin).1 := by
  simp only [confirm, h, Proc.print]
  cases hs : (Scanln p.stdin).1 <;> simp [answersYes]

theorem confirm_ask_app (msg : String) (p : Proc σ) :
    (confirm msg p).2.app = p.app ∧ (confirm msg p).2.autoConfirm = p.autoConfirm ∧
    (confirm msg p).2.stderr = p.stderr ∧
    (confirm msg p).2.stdin = if p.autoConfirm then p.stdin else (Scanln p.stdin).2 := by
  unfold confirm
  by_cases h : p.autoConfirm = true
  · simp [h]
  · simp only [h, Proc.print]
    cases hs : (Scanln p.stdin).1 <;> simp

theorem setLabels_frame (A : Applicator σ) (t : LabelType) (e : String)
    (add : List (String × String)) (p : Proc σ) :
    (setLabels A t e add p).stdin = p.stdin ∧
    (setLabels A t e add p).autoConfirm = p.autoConfirm ∧
    (setLabels A t e add p).stdout = p.stdout := by
  induction add generalizing p with
  | nil => simp [setLabels]
  | cons kv rest ih =>
    obtain ⟨k, v⟩ := kv
    simp only [setLabels]
    obtain ⟨h1, h2, h3⟩ := ih _
    rw [h1, h2, h3]
    cases (A.SetLabel t e k v p.app).1 <;> simp [Proc.eprint]

theorem setLabels_log (A : Applicator σ) (t : LabelType) (e : String)
    (add : List (String × String)) (p : Proc (σ × List Call)) :
    (setLabels A.traced t e add p).app.2 = p.app.2 ++ setCalls t e add := by
  induction add generalizing p with
  | nil => simp [setLabels, setCalls]
  | cons kv rest ih =>
    obtain ⟨k, v⟩ := kv
    simp only [setLabels]
    rw [ih]
    cases (A.traced.SetLabel t e k v p.app).1 <;>
      simp [Proc.eprint, Applicator.traced, setCalls]

theorem removeLabels_frame (A : Applicator σ) (t : LabelType) (e : String)
    (del : List String) (p : Proc σ) :
    (removeLabels A t e del p).stdin = p.stdin ∧
    (removeLabels A t e del p).autoConfirm = p.autoConfirm ∧
    (removeLabels A t e del p).stdout = p.stdout := by
  induction del generalizing p with
  | nil => simp [removeLabels]
  | cons k rest ih =>
    simp only [removeLabels]
    obtain ⟨h1, h2, h3⟩ := ih _
    rw [h1, h2, h3]
    cases (A.RemoveLabel t e k p.app).1 <;> simp [Proc.eprint]

theorem removeLabels_log (A : Applicator σ) (t : LabelType) (e : String)
    (del : List String) (p : Proc (σ × List Call)) :
    (removeLabels A.traced t e del p).app.2 = p.app.2 ++ removeCalls t e del := by
  induction del generalizing p with
  | nil => simp [removeLabels, removeCalls]
  | cons k rest ih =>
    simp only [removeLabels]
    rw [ih]
    cases (A.traced.RemoveLabel t e k p.app).1 <;>
      simp [Proc.eprint, Applicator.traced, removeCalls]

theorem setLabels_guard (A : Applicator σ) (t : LabelType) (e : String)
    (add : List (String × String)) (p : Proc σ) :
    (if add.length > 0 then setLabels A t e add p else p) = setLabels A t e add p := by
  cases add <;> simp [setLabels]

theorem removeLabels_guard (A : Applicator σ) (t : LabelType) (e : String)
    (del : List String) (p : Proc σ) :
    (if del.length > 0 then removeLabels A t e del p else p) = removeLabels A t e del p := by
  cases del <;> simp [removeLabels]

theorem applyLabels_of_refused (A : Applicator σ) (e : String) (t : LabelType)
    (add : List (String × String)) (del : List String) (p : Proc σ)
    (h : (confirm ("mutate the labels for " ++ t ++ "/" ++ e) p).1 = false) :
    applyLabels A e t add del p =
      (none, (confirm ("mutate the labels for " ++ t ++ "/" ++ e) p).2) := by
  simp [applyLabels, h]

theorem applyLabels_of_confirmed (A : Applicator σ) (e : String) (t : LabelType)
    (add : List (String × String)) (del : List String) (p : Proc σ)
    (h : (confirm ("mutate the labels for " ++ t ++ "/" ++ e) p).1 = true) :
    applyLabels A e t add del p =
      (none, removeLabels A t e del
        (setLabels A t e add (confirm ("mutate the labels for " ++ t ++ "/" ++ e) p).2)) := by
  simp only [applyLabels, h, Bool.not_true, Bool.false_eq_true, if_false,
    setLabels_guard, removeLabels_guard]

/-- Both `return` statements of `applyLabels` return `nil`. -/
theorem applyLabels_fst (A : Applicator σ) (e : String) (t : LabelType)
    (add : List (String × String)) (del : List String) (p : Proc σ) :
    (applyLabels A e t add del p).1 = none := by
  cases h : (confirm ("mutate the labels for " ++ t ++ "/" ++ e) p).1
  · rw [applyLabels_of_refused A e t add del p h]
  · rw [applyLabels_of_confirmed A e t add del p h]

theorem applyLabels_frame (A : Applicator σ) (e : String) (t : LabelType)
    (add : List (String × String)) (del : List String) (p : Proc σ) :
    (applyLabels A e t add del p).2.autoConfirm = p.autoConfirm ∧
    (applyLabels A e t add del p).2.stdin =
      if p.autoConfirm then p.stdin else (Scanln p.stdin).2 := by
  obtain ⟨_, hc2, _, hc4⟩ := confirm_ask_app ("mutate the labels for " ++ t ++ "/" ++ e) p
  cases h : (confirm ("mutate the labels for " ++ t ++ "/" ++ e) p).1
  · rw [applyLabels_of_refused A e t add del p h]
    exact ⟨hc2, hc4⟩
  · rw [applyLabels_of_confirmed A e t add del p h]
    simp only [(removeLabels_frame A t e del _).1, (removeLabels_frame A t e del _).2.1,
        (setLabels_frame A t e add _).1, (setLabels_frame A t e add _).2.1, hc2, hc4, and_self]

theorem applyLabels_refused (A : Applicator σ) (e : String) (t : LabelType)
    (add : List (String × String)) (del : List String) (p : Proc σ)
    (h : (confirm ("mutate the labels for " ++ t ++ "/" ++ e) p).1 = false) :
    (applyLabels A e t add del p).2.app = p.app := by
  rw [applyLabels_of_refused A e t add del p h]
  exact (confirm_ask_app _ p).1

theorem applyLabels_log (A : Applicator σ) (e : String) (t : LabelType)
    (add : List (String × String)) (del : List String) (p : Proc (σ × List Call))
    (h : (confirm ("mutate the labels for " ++ t ++ "/" ++ e) p).1 = true) :
    (applyLabels A.traced e t add del p).2.app.2 =
      p.app.2 ++ setCalls t e add ++ removeCalls t e del := by
  rw [applyLabels_of_confirmed A.traced e t add del p h]
  simp only [removeLabels_log, setLabels_log, (confirm_ask_app _ p).1]

theorem applyLoop_cons (env : Env) (A : Applicator σ) (t : LabelType)
    (add : List (String × String)) (del : List String) (m : Labeled) (rest : List Labeled)
    (ec : Nat) (p : Proc σ) :
    applyLoop env A t add del (m :: rest) ec p =
      match (A.GetLabels t m.ID (applyLabels A m.ID t add del p).2.app).1 with
      | .error err =>
        applyLoop env A t add del rest 1
          (Proc.eprint { (applyLabels A m.ID t add del p).2 with
              app := (A.GetLabels t m.ID (applyLabels A m.ID t add del p).2.app).2 }
            ("Got error while querying labels. " ++ err ++ "\n"))
      | .ok l =>
        applyLoop env A t add del rest ec
          (Proc.print { (applyLabels A m.ID t add del p).2 with
              app := (A.GetLabels t m.ID (applyLabels A m.ID t add del p).2.app).2 }
            (t ++ "/" ++ m.ID ++ ": " ++ env.SetString l.Labels ++ "\n")) := by
  simp only [applyLoop, applyLabels_fst]

theorem Granted.head {auto : Bool} {stdin : List (Option String)} {n : Nat}
    (h : Granted auto stdin (n + 1)) (ha : auto = false) :
    answersYes (Scanln stdin).1 = true := by
  rcases h with h | ⟨hl, hall⟩
  · simp [ha] at h
  · cases stdin with
    | nil => simp at hl
    | cons r rest => exact hall r (by simp)

theorem Granted.tail {auto : Bool} {stdin : List (Option String)} {n : Nat}
    (h : Granted auto stdin (n + 1)) :
    Granted auto (if auto then stdin else (Scanln stdin).2) n := by
  rcases h with h | ⟨hl, hall⟩
  · exact Or.inl h
  · cases auto with
    | true => exact Or.inl rfl
    | false =>
      right
      cases stdin with
      | nil => simp at hl
      | cons r rest =>
        simp only [Bool.false_eq_true, if_false, Scanln]
        refine ⟨by simpa using hl, fun x hx => hall x ?_⟩
        simp [List.take_succ_cons, hx]

theorem confirm_of_granted (msg : String) (p : Proc σ) (n : Nat)
    (h : Granted p.autoConfirm p.stdin (n + 1)) : (confirm msg p).1 = true := by
  cases ha : p.autoConfirm with
  | true => rw [confirm_auto msg p ha]
  | false => rw [confirm_ask_fst msg p ha]; exact h.head ha

theorem traced_GetLabels_log (A : Applicator σ) (t : LabelType) (id : String)
    (s : σ × List Call) :
    (A.traced.GetLabels t id s).2.2 = s.2 ++ [Call.getLabels t id] := rfl

theorem applyLoop_log (env : Env) (A : Applicator σ) (t : LabelType)
    (add : List (String × String)) (del : List String) (ms : List Labeled)
    (ec : Nat) (p : Proc (σ × List Call))
    (h : Granted p.autoConfirm p.stdin ms.length) :
    (applyLoop env A.traced t add del ms ec p).2.app.2 =
      p.app.2 ++ ms.flatMap (entityCalls t add del) := by
  induction ms generalizing ec p with
  | nil => simp [applyLoop]
  | cons m rest ih =>
    have hc := confirm_of_granted ("mutate the labels for " ++ t ++ "/" ++ m.ID) p _ h
    have hlog := applyLabels_log A m.ID t add del p hc
    obtain ⟨hf1, hf2⟩ := applyLabels_frame A.traced m.ID t add del p
    have ht := h.tail
    rw [← hf2, ← hf1] at ht
    rw [applyLoop_cons]
    split
    · rw [ih]
      · simp [Proc.eprint, traced_GetLabels_log, hlog, entityCalls]
      · simpa [Proc.eprint] using ht
    · rw [ih]
      · simp [Proc.print, traced_GetLabels_log, hlog, entityCalls]
      · simpa [Proc.print] using ht

/-- The exit code of the entity loop does not depend on what `SetLabel` and
`RemoveLabel` return: when every `GetLabels` call succeeds it is the exit
code the loop started with. -/
theorem applyLoop_exit_of_reads_ok (env : Env) (A : Applicator σ) (t : LabelType)
    (add : List (String × String)) (del : List String) (ms : List Labeled)
    (ec : Nat) (p : Proc σ)
    (hread : ∀ t id s, ∃ l, (A.GetLabels t id s).1 = .ok l) :
    (applyLoop env A t add del ms ec p).1 = ec := by
  induction ms generalizing p with
  | nil => simp [applyLoop]
  | cons m rest ih =>
    rw [applyLoop_cons]
    obtain ⟨l, hl⟩ := hread t m.ID (applyLabels A m.ID t add del p).2.app
    split
    · rename_i err herr
      rw [hl] at herr
      cases herr
    · exact ih _

theorem main_apply_eq (env : Env) (A : Applicator σ) (f : Flags) (app : σ)
    (stdin : List (Option String)) :
    main env A CmdApply f app stdin = mainApply env A f ⟨app, stdin, [], [], false⟩ := by
  simp [main, CmdApply, CmdShow]

theorem main_show_eq (env : Env) (A : Applicator σ) (f : Flags) (app : σ)
    (stdin : List (Option String)) :
    main env A CmdShow f app stdin = mainShow env A f ⟨app, stdin, [], [], false⟩ := by
  simp [main]

/-- In the apply branch a selector that does not parse ends the run with exit
code 0, for every applicator. -/
theorem main_apply_exit_of_selector_error (env : Env) (A : Applicator σ) (f : Flags) (app : σ)
    (stdin : List (Option String)) (t : LabelType) (err : Err)
    (hT : env.AsType f.applyLabelType = .ok t)
    (hS : env.Parse f.applySubjectSelector = .error err) :
    (main env A CmdApply f app stdin).1 = 0 := by
  rw [main_apply_eq]
  simp [mainApply, hT, hS]

/-- The other error branches before the entity loop end the run with exit
code 1. -/
theorem main_exit_of_early_error (env : Env) (A : Applicator σ) (f : Flags) (app : σ)
    (stdin : List (Option String)) :
    ((∃ err, env.AsType f.applyLabelType = .error err) →
      (main env A CmdApply f app stdin).1 = 1) ∧
    (∀ t sel err, env.AsType f.applyLabelType = .ok t →
      env.Parse f.applySubjectSelector = .ok sel →
      (A.GetMatches sel t false app).1 = .error err →
      (main env A CmdApply f app stdin).1 = 1) ∧
    ((∃ err, env.AsType f.showLabelType = .error err) →
      (main env A CmdShow f app stdin).1 = 1) ∧
    (∀ t err, env.AsType f.showLabelType = .ok t →
      (A.GetLabels t f.showID app).1 = .error err →
      (main env A CmdShow f app stdin).1 = 1) := by
  refine ⟨?_, ?_, ?_, ?_⟩
  · rintro ⟨err, h⟩
    rw [main_apply_eq]
    simp [mainApply, h]
  · intro t sel err hT hS hM
    rw [main_apply_eq]
    simp [mainApply, hT, hS, hM]
  · rintro ⟨err, h⟩
    rw [main_show_eq]
    simp [mainShow, h]
  · intro t err hT hG
    rw [main_show_eq]
    simp [mainShow, hT, hG]

/-- When every `GetLabels` call succeeds, an apply run that reaches the entity
loop exits with code 0, whatever `SetLabel` and `RemoveLabel` return. -/
theorem main_apply_exit_of_reads_ok (env : Env) (A : Applicator σ) (f : Flags) (app : σ)
    (stdin : List (Option String)) (t : LabelType) (sel : Selector) (ms : List Labeled)
    (hT : env.AsType f.applyLabelType = .ok t)
    (hS : env.Parse f.applySubjectSelector = .ok sel)
    (hM : (A.GetMatches sel t false app).1 = .ok ms)
    (hread : ∀ t id s, ∃ l, (A.GetLabels t id s).1 = .ok l) :
    (main env A CmdApply f app stdin).1 = 0 := by
  rw [main_apply_eq]
  simp only [mainApply, hT, hS, hM]
  exact applyLoop_exit_of_reads_ok env A t _ _ ms 0 _ hread

/-- C6: an apply run with confirmation granted makes, whatever the applicator
returns, exactly these calls in this order: `GetMatches`, then for each matched
entity one `SetLabel` per additive pair, one `RemoveLabel` per destructive key
and one `GetLabels`. No call is skipped after an error and none is added to
undo an earlier one. -/
theorem C6_apply_run_never_aborts (env : Env) (A : Applicator σ) (f : Flags) (app : σ)
    (stdin : List (Option String)) (t : LabelType) (sel : Selector) (ms : List Labeled)
    (hT : env.AsType f.applyLabelType = .ok t)
    (hS : env.Parse f.applySubjectSelector = .ok sel)
    (hM : (A.GetMatches sel t false app).1 = .ok ms)
    (hC : Granted f.applyAutoConfirm stdin ms.length) :
    (main env A.traced CmdApply f (app, []) stdin).2.app.2 =
      Call.getMatches sel t false ::
        ms.flatMap (fun m =>
          f.applyAddititiveLabels.map (fun kv => Call.setLabel t m.ID kv.1 kv.2) ++
          f.applyDestructiveLabels.map (fun k => Call.removeLabel t m.ID k) ++
          [Call.getLabels t m.ID]) := by
  have hM' : (A.traced.GetMatches sel t false (app, [])).1 = .ok ms := hM
  have hE : (fun m : Labeled =>
      f.applyAddititiveLabels.map (fun kv => Call.setLabel t m.ID kv.1 kv.2) ++
      f.applyDestructiveLabels.map (fun k => Call.removeLabel t m.ID k) ++
      [Call.getLabels t m.ID]) =
      entityCalls t f.applyAddititiveLabels f.applyDestructiveLabels := by
    funext m; rfl
  rw [main_apply_eq, hE]
  simp only [mainApply, hT, hS, hM']
  rw [applyLoop_log]
  · have : (A.traced.GetMatches sel t false (app, [])).2.2 = [Call.getMatches sel t false] := rfl
    split <;> split <;> simp [Proc.print, this]
  · split <;> split <;> simpa [Proc.print] using hC

/-- C7: `confirm` returns true without reading input when `autoConfirm` is
set; otherwise it reads one scan outcome and returns true exactly when the scan
succeeded with a token that is "y" or "yes" once lower-cased and trimmed; a
refused `applyLabels` makes no call and returns `nil`; a confirmed one makes
exactly the `SetLabel` and `RemoveLabel` calls of its arguments. -/
theorem C7_mutation_iff_confirmed (A : Applicator σ) (e : String) (t : LabelType)
    (add : List (String × String)) (del : List String) (msg : String)
    (p : Proc (σ × List Call)) :
    (p.autoConfirm = true → confirm msg p = (true, p)) ∧
    (p.autoConfirm = false →
      ((confirm msg p).1 = true ↔
        ∃ tok rest, p.stdin = some tok :: rest ∧
          (TrimSpace (ToLower tok) = "y" ∨ TrimSpace (ToLower tok) = "yes")) ∧
      (confirm msg p).2.stdin = p.stdin.tail) ∧
    ((confirm ("mutate the labels for " ++ t ++ "/" ++ e) p).1 = false →
      (applyLabels A.traced e t add del p).1 = none ∧
      (applyLabels A.traced e t add del p).2.app = p.app) ∧
    ((confirm ("mutate the labels for " ++ t ++ "/" ++ e) p).1 = true →
      (applyLabels A.traced e t add del p).1 = none ∧
      (applyLabels A.traced e t add del p).2.app.2 =
        p.app.2 ++ add.map (fun kv => Call.setLabel t e kv.1 kv.2) ++
          del.map (fun k => Call.removeLabel t e k)) := by
  refine ⟨confirm_auto msg p, fun ha => ⟨?_, ?_⟩, fun h => ⟨applyLabels_fst _ _ _ _ _ _,
    applyLabels_refused _ _ _ _ _ _ h⟩, fun h => ⟨applyLabels_fst _ _ _ _ _ _,
    applyLabels_log _ _ _ _ _ _ h⟩⟩
  · rw [confirm_ask_fst msg p ha]
    cases hs : p.stdin with
    | nil => simp [Scanln, answersYes]
    | cons r rest =>
      cases r with
      | none => simp [Scanln, answersYes]
      | some tok => simp [Scanln, answersYes]
  · rw [(confirm_ask_app msg p).2.2.2, ha]
    cases p.stdin <;> simp [Scanln]

/-- C10: an apply run that fails on the label type, on the selector or in
`GetMatches`, and every show run, makes no `SetLabel` and no `RemoveLabel`
call; when the read calls of the applicator leave its store as it is, the
store after such a run is the store before it. -/
theorem C10_failed_apply_and_show_change_nothing (env : Env) (A : Applicator σ) (f : Flags)
    (app : σ) (stdin : List (Option String)) :
    (((∃ err, env.AsType f.applyLabelType = .error err) ∨
      (∃ err, env.Parse f.applySubjectSelector = .error err) ∨
      (∃ t sel err, env.AsType f.applyLabelType = .ok t ∧
        env.Parse f.applySubjectSelector = .ok sel ∧
        (A.GetMatches sel t false app).1 = .error err)) →
      (∀ c ∈ (main env A.traced CmdApply f (app, []) stdin).2.app.2, c.isMutation = false) ∧
      ((∀ sel t c s, (A.GetMatches sel t c s).2 = s) →
        (main env A CmdApply f app stdin).2.app = app)) ∧
    (∀ c ∈ (main env A.traced CmdShow f (app, []) stdin).2.app.2, c.isMutation = false) ∧
    ((∀ t id s, (A.GetLabels t id s).2 = s) →
      (main env A CmdShow f app stdin).2.app = app) := by
  refine ⟨fun h => ?_, ?_, fun hro => ?_⟩
  · rw [main_apply_eq, main_apply_eq]
    cases hT : env.AsType f.applyLabelType with
    | error e1 => simp [mainApply, hT, Proc.eprint]
    | ok t =>
      cases hS : env.Parse f.applySubjectSelector with
      | error e2 => simp [mainApply, hT, hS, Proc.eprint]
      | ok sel =>
        rcases h with ⟨e1, h1⟩ | ⟨e2, h2⟩ | ⟨t', sel', e3, h1, h2, h3⟩
        · rw [hT] at h1; cases h1
        · rw [hS] at h2; cases h2
        · rw [hT] at h1; rw [hS] at h2
          cases h1; cases h2
          have h3' : (A.traced.GetMatches sel t false (app, [])).1 = .error e3 := h3
          have hlog : (A.traced.GetMatches sel t false (app, [])).2.2 =
              [Call.getMatches sel t false] := rfl
          refine ⟨?_, fun hro => ?_⟩
          · simp [mainApply, hT, hS, h3', Proc.eprint, hlog, Call.isMutation]
          · simp [mainApply, hT, hS, h3, Proc.eprint, hro]
  · rw [main_show_eq]
    cases hT : env.AsType f.showLabelType with
    | error e1 => simp [mainShow, hT, Proc.eprint]
    | ok t =>
      have hlog : (A.traced.GetLabels t f.showID (app, [])).2.2 =
          [Call.getLabels t f.showID] := rfl
      simp only [mainShow, hT]
      split <;> simp [Proc.eprint, Proc.print, hlog, Call.isMutation]
  · rw [main_show_eq]
    cases hT : env.AsType f.showLabelType with
    | error e1 => simp [mainShow, hT, Proc.eprint]
    | ok t =>
      simp only [mainShow, hT]
      split <;> simp [Proc.eprint, Proc.print, hro]

/-- Witness of C6: a run over two matched nodes, each confirmed on standard
input, on an applicator that refuses every write. -/
theorem C6_apply_run_never_aborts_witness :
    Granted demoFlags.applyAutoConfirm [some "y", some "Yes"] 2 ∧
    (main sampleEnv ReadOnlyApplicator.traced CmdApply demoFlags (demoStore, [])
        [some "y", some "Yes"]).2.app.2 =
      [Call.getMatches [⟨"q", .Equals, ["good"]⟩] "node" false,
       Call.setLabel "node" "n1" "foo" "bar", Call.removeLabel "node" "n1" "zap",
       Call.getLabels "node" "n1",
       Call.setLabel "node" "n3" "foo" "bar", Call.removeLabel "node" "n3" "zap",
       Call.getLabels "node" "n3"] :=
  ⟨by unfold Granted; decide,
   C6_apply_run_never_aborts sampleEnv ReadOnlyApplicator demoFlags demoStore
    [some "y", some "Yes"] "node" [⟨"q", .Equals, ["good"]⟩]
    [⟨"node", "n1", [("q", "good"), ("zap", "1")]⟩, ⟨"node", "n3", [("q", "good")]⟩]
    rfl rfl rfl (by unfold Granted; decide)⟩

/-- Witness of C7: `--yes` confirms without input, `Yes` on standard input
confirms, and after `no` the store and the call log are untouched. -/
theorem C7_mutation_iff_confirmed_witness :
    confirm "mutate the labels for node/n1" demoAuto = (true, demoAuto) ∧
    (confirm "mutate the labels for node/n1" demoAsk).1 = true ∧
    (applyLabels FakeApplicator.traced "n1" "node" [("foo", "bar")] ["zap"] demoRefuse).2.app =
      (demoStore, []) ∧
    (applyLabels FakeApplicator.traced "n1" "node" [("foo", "bar")] ["zap"] demoAuto).2.app.2 =
      [Call.setLabel "node" "n1" "foo" "bar", Call.removeLabel "node" "n1" "zap"] :=
  ⟨(C7_mutation_iff_confirmed FakeApplicator "n1" "node" [("foo", "bar")] ["zap"]
      "mutate the labels for node/n1" demoAuto).1 rfl,
   ((C7_mutation_iff_confirmed FakeApplicator "n1" "node" [("foo", "bar")] ["zap"]
      "mutate the labels for node/n1" demoAsk).2.1 rfl).1.2 ⟨"Yes", [], rfl, Or.inr (by decide)⟩,
   ((C7_mutation_iff_confirmed FakeApplicator "n1" "node" [("foo", "bar")] ["zap"]
      "mutate the labels for node/n1" demoRefuse).2.2.1 (by decide)).2,
   ((C7_mutation_iff_confirmed FakeApplicator "n1" "node" [("foo", "bar")] ["zap"]
      "mutate the labels for node/n1" demoAuto).2.2.2 (by decide)).2⟩

/-- Witness of C10: an apply run with the unknown label type `nodes` and a
show run make no call that changes a label, and leave the store as it was. -/
theorem C10_failed_apply_and_show_change_nothing_witness :
    (∀ c ∈ (main sampleEnv FakeApplicator.traced CmdApply
        { demoFlags with applyLabelType := "nodes" } (demoStore, []) []).2.app.2,
      c.isMutation = false) ∧
    (main sampleEnv FakeApplicator CmdApply
        { demoFlags with applyLabelType := "nodes" } demoStore []).2.app = demoStore ∧
    (main sampleEnv FakeApplicator CmdShow demoFlags demoStore []).2.app = demoStore :=
  ⟨((C10_failed_apply_and_show_change_nothing sampleEnv FakeApplicator
      { demoFlags with applyLabelType := "nodes" } demoStore []).1
      (Or.inl ⟨"Unrecognized type nodes", rfl⟩)).1,
   ((C10_failed_apply_and_show_change_nothing sampleEnv FakeApplicator
      { demoFlags with applyLabelType := "nodes" } demoStore []).1
      (Or.inl ⟨"Unrecognized type nodes", rfl⟩)).2 (fun _ _ _ _ => rfl),
   (C10_failed_apply_and_show_change_nothing sampleEnv FakeApplicator demoFlags demoStore
      []).2.2 (fun _ _ _ => rfl)⟩

/-- C2: on the run `apply --yes -t node -s q=good -a foo=bar -d zap` against an
applicator that refuses every write, `SetLabel` and `RemoveLabel` are called
for both matched nodes, each returns an error, each error is printed, and the
exit code is 0. -/
theorem C2_exit_code_zero_after_failed_writes :
    (ReadOnlyApplicator.SetLabel "node" "n1" "foo" "bar" demoStore).1 =
      some "permission denied" ∧
    (ReadOnlyApplicator.RemoveLabel "node" "n1" "zap" demoStore).1 =
      some "permission denied" ∧
    (main sampleEnv ReadOnlyApplicator.traced CmdApply
        { demoFlags with applyAutoConfirm := true } (demoStore, []) []).2.app.2 =
      [Call.getMatches [⟨"q", .Equals, ["good"]⟩] "node" false,
       Call.setLabel "node" "n1" "foo" "bar", Call.removeLabel "node" "n1" "zap",
       Call.getLabels "node" "n1",
       Call.setLabel "node" "n3" "foo" "bar", Call.removeLabel "node" "n3" "zap",
       Call.getLabels "node" "n3"] ∧
    (main sampleEnv ReadOnlyApplicator CmdApply
        { demoFlags with applyAutoConfirm := true } demoStore []).2.stderr =
      ["Error while appyling label. k/v: foo/bar.\npermission denied\n",
       "Error while destroying label with key: zap.\npermission denied\n",
       "Error while appyling label. k/v: foo/bar.\npermission denied\n",
       "Error while destroying label with key: zap.\npermission denied\n"] ∧
    (main sampleEnv ReadOnlyApplicator CmdApply
        { demoFlags with applyAutoConfirm := true } demoStore []).1 = 0 := by
  decide

/-- C3: on the run `apply -t node -s q=good=`, whose selector does not parse,
the error is printed, no call is made on the applicator, and the exit code
is 0. -/
theorem C3_exit_code_zero_after_selector_error :
    sampleEnv.Parse "q=good=" = .error "expected: key=value" ∧
    (main sampleEnv FakeApplicator.traced CmdApply
        { demoFlags with applySubjectSelector := "q=good=" } (demoStore, []) []).2.app.2 = [] ∧
    (main sampleEnv FakeApplicator CmdApply
        { demoFlags with applySubjectSelector := "q=good=" } demoStore []).2.stderr =
      ["Error while parsing subject label. Check the syntax.\nexpected: key=value\n"] ∧
    (main sampleEnv FakeApplicator CmdApply
        { demoFlags with applySubjectSelector := "q=good=" } demoStore []).1 = 0 :=
  ⟨rfl, by decide, by decide, by decide⟩

end
/-! ## Theorems on the in-memory label store -/

theorem FakeStore.lookup_nil (t : LabelType) (id k : String) :
    FakeStore.lookup [] t id k = none := rfl

theorem FakeStore.lookup_cons (e : Entry) (s : FakeStore) (t : LabelType) (id k : String) :
    FakeStore.lookup (e :: s) t id k =
      if e.isAt t id k then some e.value else FakeStore.lookup s t id k := by
  unfold FakeStore.lookup FakeStore.labelsOf
  by_cases h : e.isOf t id = true
  · have h2 : e.labelType = t ∧ e.id = id := by simpa [Entry.isOf] using h
    by_cases hk : e.key = k
    · simp [List.filter_cons, h, LabelSet.get, hk, Entry.isAt, h2]
    · simp [List.filter_cons, h, LabelSet.get, hk, Entry.isAt]
  · have : e.isAt t id k = false := by
      simp only [Entry.isAt, Entry.isOf] at h ⊢
      simp only [Bool.not_eq_true] at h
      rw [h]; rfl
    simp [List.filter_cons, h, this]

theorem Entry.isAt_iff (e : Entry) (t : LabelType) (id k : String) :
    e.isAt t id k = true ↔ e.labelType = t ∧ e.id = id ∧ e.key = k := by
  simp [Entry.isAt, and_assoc]

theorem FakeStore.lookup_erase (s : FakeStore) (t t' : LabelType) (id id' k k' : String) :
    FakeStore.lookup (s.filter (fun e => !e.isAt t id k)) t' id' k' =
      if t' = t ∧ id' = id ∧ k' = k then none else FakeStore.lookup s t' id' k' := by
  induction s with
  | nil => simp [FakeStore.lookup_nil]
  | cons e s ih =>
    by_cases h : e.isAt t id k = true
    · rw [List.filter_cons_of_neg (by simp [h]), ih, FakeStore.lookup_cons]
      by_cases h' : t' = t ∧ id' = id ∧ k' = k
      · simp [h']
      · have : e.isAt t' id' k' = false := by
          rw [Entry.isAt_iff] at h
          rw [Bool.eq_false_iff, Ne, Entry.isAt_iff]
          rintro ⟨a, b, c⟩
          exact h' ⟨a ▸ h.1, b ▸ h.2.1, c ▸ h.2.2⟩
        simp [h', this]
    · rw [List.filter_cons_of_pos (by simp [h]), FakeStore.lookup_cons, ih,
        FakeStore.lookup_cons]
      by_cases h' : t' = t ∧ id' = id ∧ k' = k
      · have : e.isAt t' id' k' = false := by
          obtain ⟨a, b, c⟩ := h'
          subst a b c
          simpa using h
        obtain ⟨a, b, c⟩ := h'
        subst a b c
        simp [this]
      · simp [h']

theorem FakeStore.lookup_set (s : FakeStore) (t t' : LabelType) (id id' k k' v : String) :
    (s.set t id k v).lookup t' id' k' =
      if t' = t ∧ id' = id ∧ k' = k then some v else s.lookup t' id' k' := by
  unfold FakeStore.set
  rw [FakeStore.lookup_cons, FakeStore.lookup_erase]
  by_cases h : t' = t ∧ id' = id ∧ k' = k
  · obtain ⟨a, b, c⟩ := h
    subst a b c
    simp [Entry.isAt]
  · have : Entry.isAt ⟨t, id, k, v⟩ t' id' k' = false := by
      rw [Bool.eq_false_iff, Ne, Entry.isAt_iff]
      rintro ⟨a, b, c⟩
      exact h ⟨a.symm, b.symm, c.symm⟩
    simp [h, this]

theorem FakeStore.lookup_remove (s : FakeStore) (t t' : LabelType) (id id' k k' : String) :
    (s.remove t id k).lookup t' id' k' =
      if t' = t ∧ id' = id ∧ k' = k then none else s.lookup t' id' k' :=
  FakeStore.lookup_erase s t t' id id' k k'

theorem setLabels_fake_other (t t' : LabelType) (e e' k' : String)
    (add : List (String × String)) (p : Proc FakeStore)
    (h : t' ≠ t ∨ e' ≠ e ∨ k' ∉ add.map Prod.fst) :
    (setLabels FakeApplicator t e add p).app.lookup t' e' k' = p.app.lookup t' e' k' := by
  induction add generalizing p with
  | nil => simp [setLabels]
  | cons kv rest ih =>
    obtain ⟨k, v⟩ := kv
    have hrest : t' ≠ t ∨ e' ≠ e ∨ k' ∉ rest.map Prod.fst := by
      rcases h with h | h | h
      · exact Or.inl h
      · exact Or.inr (Or.inl h)
      · exact Or.inr (Or.inr (fun hm => h (by simp [hm])))
    have hne : ¬(t' = t ∧ e' = e ∧ k' = k) := by
      rintro ⟨a, b, c⟩
      rcases h with h | h | h
      · exact h a
      · exact h b
      · exact h (by simp [c])
    simp only [setLabels]
    rw [ih _ hrest]
    simp [FakeApplicator, FakeStore.lookup_set, hne]

theorem setLabels_fake_mem (t : LabelType) (e : String)
    (add : List (String × String)) (p : Proc FakeStore)
    (hn : (add.map Prod.fst).Nodup) (kv : String × String) (hkv : kv ∈ add) :
    (setLabels FakeApplicator t e add p).app.lookup t e kv.1 = some kv.2 := by
  induction add generalizing p with
  | nil => simp at hkv
  | cons hd rest ih =>
    obtain ⟨k, v⟩ := hd
    simp only [List.map_cons, List.nodup_cons] at hn
    simp only [setLabels]
    rcases List.mem_cons.mp hkv with h | h
    · subst h
      rw [setLabels_fake_other _ _ _ _ _ _ _ (Or.inr (Or.inr hn.1))]
      simp [FakeApplicator, FakeStore.lookup_set]
    · exact ih _ hn.2 h

theorem removeLabels_fake (t t' : LabelType) (e e' k' : String)
    (del : List String) (p : Proc FakeStore) :
    (removeLabels FakeApplicator t e del p).app.lookup t' e' k' =
      if t' = t ∧ e' = e ∧ k' ∈ del then none else p.app.lookup t' e' k' := by
  induction del generalizing p with
  | nil => simp [removeLabels]
  | cons k rest ih =>
    simp only [removeLabels]
    rw [ih]
    by_cases h1 : t' = t ∧ e' = e ∧ k' ∈ rest
    · simp [h1]
    · by_cases h2 : t' = t ∧ e' = e ∧ k' = k
      · simp [h2, FakeApplicator, FakeStore.lookup_remove]
      · have h3 : ¬(t' = t ∧ e' = e ∧ k' ∈ k :: rest) := by
          rintro ⟨a, b, c⟩
          rcases List.mem_cons.mp c with c | c
          · exact h2 ⟨a, b, c⟩
          · exact h1 ⟨a, b, c⟩
        simp only [h1, h3, if_false]
        simp [FakeApplicator, FakeStore.lookup_remove, h2]

/-- C8: over the in-memory store a confirmed `applyLabels` leaves every
destructive key absent from the entity, every additive key that is not also
destructive at its given value, and every other label of the entity and every
label of any other entity as it was. -/
theorem C8_add_then_delete (e : String) (t : LabelType)
    (add : List (String × String)) (del : List String) (p : Proc FakeStore)
    (hn : (add.map Prod.fst).Nodup)
    (hc : (confirm ("mutate the labels for " ++ t ++ "/" ++ e) p).1 = true) :
    (∀ k ∈ del, (applyLabels FakeApplicator e t add del p).2.app.lookup t e k = none) ∧
    (∀ kv ∈ add, kv.1 ∉ del →
      (applyLabels FakeApplicator e t add del p).2.app.lookup t e kv.1 = some kv.2) ∧
    (∀ k, k ∉ add.map Prod.fst → k ∉ del →
      (applyLabels FakeApplicator e t add del p).2.app.lookup t e k = p.app.lookup t e k) ∧
    (∀ t' e' k, t' ≠ t ∨ e' ≠ e →
      (applyLabels FakeApplicator e t add del p).2.app.lookup t' e' k =
        p.app.lookup t' e' k) := by
  have hq := (confirm_ask_app ("mutate the labels for " ++ t ++ "/" ++ e) p).1
  rw [applyLabels_of_confirmed FakeApplicator e t add del p hc]
  simp only [removeLabels_fake]
  refine ⟨fun k hk => by simp [hk], fun kv hkv hnd => ?_, fun k hka hkd => ?_,
    fun t' e' k hne => ?_⟩
  · simp only [hnd, and_false, if_false]
    exact setLabels_fake_mem t e add _ hn kv hkv
  · simp only [hkd, and_false, if_false]
    rw [setLabels_fake_other _ _ _ _ _ _ _ (Or.inr (Or.inr hka)), hq]
  · have : ¬(t' = t ∧ e' = e ∧ k ∈ del) := by
      rintro ⟨a, b, _⟩
      rcases hne with h | h
      · exact h a
      · exact h b
    simp only [this, if_false]
    rw [setLabels_fake_other, hq]
    rcases hne with h | h
    · exact Or.inl h
    · exact Or.inr (Or.inl h)

/-- Witness of C8: `--add foo=bar --add zap=2 --delete zap` on node `n1`,
which carries `q=good` and `zap=1`. -/
theorem C8_add_then_delete_witness :
    (demoRun.2.app.lookup "node" "n1" "zap" = none) ∧
    (demoRun.2.app.lookup "node" "n1" "foo" = some "bar") ∧
    (demoRun.2.app.lookup "node" "n1" "q" = some "good") ∧
    (demoRun.2.app.lookup "node" "n2" "q" = some "bad") :=
  have h := C8_add_then_delete "n1" "node" [("foo", "bar"), ("zap", "2")] ["zap"]
    ⟨demoStore, [], [], [], true⟩ (by decide) (by decide)
  ⟨h.1 "zap" (by decide), h.2.1 ("foo", "bar") (by decide) (by decide),
   (h.2.2.1 "q" (by decide) (by decide)).trans (by decide),
   (h.2.2.2 "node" "n2" "q" (Or.inr (by decide))).trans (by decide)⟩


/-! ## Theorems on the change watcher -/

theorem sendUpdated_eq (dsID : String) (l : List DaemonSet) :
    sendUpdated dsID l = (l.filter (fun d => d.ID = dsID)).map Signal.updated := by
  induction l with
  | nil => rfl
  | cons d rest ih =>
    by_cases h : dsID = d.ID
    · rw [sendUpdated, if_pos h, ih, List.filter_cons_of_pos (by simp [h])]
      rfl
    · have h' : ¬ d.ID = dsID := fun e => h e.symm
      rw [sendUpdated, if_neg h, ih, List.filter_cons_of_neg (by simp [h'])]

theorem sendDeleted_eq (dsID : String) (l : List DaemonSet) :
    sendDeleted dsID l = (l.filter (fun d => d.ID = dsID)).map (fun _ => Signal.deleted) := by
  induction l with
  | nil => rfl
  | cons d rest ih =>
    by_cases h : dsID = d.ID
    · rw [sendDeleted, if_pos h, ih, List.filter_cons_of_pos (by simp [h])]
      rfl
    · have h' : ¬ d.ID = dsID := fun e => h e.symm
      rw [sendDeleted, if_neg h, ih, List.filter_cons_of_neg (by simp [h'])]

/-- C9: for every batch the watcher sends one error when `Err` is set, then
the `Updated` records of its own daemon set in batch order, then one delete
signal per `Deleted` record of its own daemon set; `Created` plays no part;
and over any sequence of batches, with or without `Err`, every batch is
processed in turn. -/
theorem C9_watcher_forwards_own_changes (dsID : String) (watched : WatchedDaemonSets)
    (created : List DaemonSet) (batches : List WatchedDaemonSets) :
    watchBatch dsID watched =
      (watched.Err.toList.map
        (fun err => Signal.error ("Error occured when watching daemon sets: " ++ err))) ++
      (watched.Updated.filter (fun d => d.ID = dsID)).map Signal.updated ++
      (watched.Deleted.filter (fun d => d.ID = dsID)).map (fun _ => Signal.deleted) ∧
    watchBatch dsID { watched with Created := created } = watchBatch dsID watched ∧
    watchDSChanges dsID (batches.map some) = batches.flatMap (watchBatch dsID) ∧
    watchDSChanges dsID (batches.map some ++ [none]) =
      batches.flatMap (watchBatch dsID) ++ [Signal.closed] := by
  refine ⟨?_, rfl, ?_, ?_⟩
  · unfold watchBatch
    rw [sendUpdated_eq, sendDeleted_eq]
    cases watched.Err <;> rfl
  · induction batches with
    | nil => rfl
    | cons b rest ih => simp [watchDSChanges, ih]
  · induction batches with
    | nil => rfl
    | cons b rest ih => simp [watchDSChanges, ih]

/-- An example batch for the daemon set `ds-1`: an error, an update of `ds-1`,
an update and a deletion of `ds-2`, a creation and a deletion of `ds-1`. -/
theorem watchBatch_example :
    watchBatch "ds-1"
      ⟨[⟨"ds-1", "p", [], 0, "c", false, ⟨"p", ""⟩⟩],
       [⟨"ds-2", "p", [], 0, "c", false, ⟨"p", ""⟩⟩, ⟨"ds-1", "p", [], 0, "c", true, ⟨"p", ""⟩⟩],
       [⟨"ds-2", "p", [], 0, "c", false, ⟨"p", ""⟩⟩, ⟨"ds-1", "p", [], 0, "c", true, ⟨"p", ""⟩⟩],
       some "watch failed"⟩ =
      [Signal.error "Error occured when watching daemon sets: watch failed",
       Signal.updated ⟨"ds-1", "p", [], 0, "c", true, ⟨"p", ""⟩⟩,
       Signal.deleted] := by
  decide

/-! ## Theorems on the reconciler -/

theorem stripPodID_podLabelID (n p : String) : stripPodID p (podLabelID n p) = n := by
  apply String.ext
  simp [stripPodID, podLabelID, String.data_append]

theorem podLabelID_inj {n n' p : String} (h : podLabelID n p = podLabelID n' p) : n = n' := by
  have := congrArg (stripPodID p) h
  simpa [stripPodID_podLabelID] using this

theorem FakeStore.mem_ids (s : FakeStore) (t : LabelType) (id : String) :
    id ∈ s.ids t ↔ ∃ e ∈ s, e.labelType = t ∧ e.id = id := by
  simp [FakeStore.ids, List.mem_dedup, and_assoc]

theorem FakeStore.nodup_ids (s : FakeStore) (t : LabelType) : (s.ids t).Nodup :=
  List.nodup_dedup _

theorem FakeStore.lookup_some_mem (s : FakeStore) (t : LabelType) (id k v : String)
    (h : s.lookup t id k = some v) : ∃ e ∈ s, e.labelType = t ∧ e.id = id := by
  induction s with
  | nil => simp [FakeStore.lookup_nil] at h
  | cons e s ih =>
    rw [FakeStore.lookup_cons] at h
    by_cases he : e.isAt t id k = true
    · rw [Entry.isAt_iff] at he
      exact ⟨e, by simp, he.1, he.2.1⟩
    · simp only [he, if_false] at h
      obtain ⟨e', hm, h'⟩ := ih h
      exact ⟨e', by simp [hm], h'⟩

theorem dsSelector_Matches (d : String) (ls : LabelSet) :
    (dsSelector d).Matches ls = true ↔ ls.get DSIDLabel = some d := by
  unfold dsSelector Everything Selector.Add Selector.Matches Requirement.Matches
  cases h : LabelSet.get ls DSIDLabel <;> simp [h, eq_comm]

theorem FakeStore.matching_ids (s : FakeStore) (sel : Selector) (t : LabelType) :
    (s.matching sel t).map (fun l => l.ID) =
      (s.ids t).filter (fun id => sel.Matches (s.labelsOf t id)) := by
  simp [FakeStore.matching, Function.comp_def]

theorem FakeStore.nodup_matching (s : FakeStore) (sel : Selector) (t : LabelType) :
    ((s.matching sel t).map (fun l => l.ID)).Nodup := by
  rw [FakeStore.matching_ids]
  exact (FakeStore.nodup_ids s t).filter _

theorem FakeStore.mem_matching_ds (s : FakeStore) (d : String) (t : LabelType) (id : String) :
    id ∈ (s.matching (dsSelector d) t).map (fun l => l.ID) ↔
      s.lookup t id DSIDLabel = some d := by
  rw [FakeStore.matching_ids, List.mem_filter, dsSelector_Matches, FakeStore.mem_ids]
  constructor
  · exact fun h => h.2
  · exact fun h => ⟨FakeStore.lookup_some_mem s t id _ _ h, h⟩

theorem schedule_ok (ds : DaemonSet) (acc : World × List Err) (n : String)
    (h : acc.1.NoFaults) : schedule ds acc n = (acc.1.scheduled ds n, acc.2) := by
  have h1 := h acc.1.clock
  have h2 := h (acc.1.clock + 1)
  simp [schedule, World.SetPod, World.SetLabel, World.call, h1, h2, World.scheduled]

theorem unschedule_ok (ds : DaemonSet) (acc : World × List Err) (n : String)
    (h : acc.1.NoFaults) : unschedule ds acc n = (acc.1.unscheduled ds n, acc.2) := by
  have h1 := h acc.1.clock
  have h2 := h (acc.1.clock + 1)
  simp [unschedule, World.DeletePod, World.RemoveLabel, World.call, h1, h2, World.unscheduled]

theorem foldl_scheduled_faults (ds : DaemonSet) (L : List String) (w : World) :
    (L.foldl (World.scheduled ds) w).faults = w.faults := by
  induction L generalizing w with
  | nil => rfl
  | cons n rest ih => simp only [List.foldl_cons]; rw [ih]; rfl

theorem foldl_unscheduled_faults (ds : DaemonSet) (L : List String) (w : World) :
    (L.foldl (World.unscheduled ds) w).faults = w.faults := by
  induction L generalizing w with
  | nil => rfl
  | cons n rest ih => simp only [List.foldl_cons]; rw [ih]; rfl

theorem foldl_schedule_ok (ds : DaemonSet) (L : List String) (acc : World × List Err)
    (h : acc.1.NoFaults) :
    L.foldl (schedule ds) acc = (L.foldl (World.scheduled ds) acc.1, acc.2) := by
  induction L generalizing acc with
  | nil => rfl
  | cons n rest ih =>
    simp only [List.foldl_cons]
    rw [schedule_ok ds acc n h, ih]
    exact fun i => h i

theorem foldl_unschedule_ok (ds : DaemonSet) (L : List String) (acc : World × List Err)
    (h : acc.1.NoFaults) :
    L.foldl (unschedule ds) acc = (L.foldl (World.unscheduled ds) acc.1, acc.2) := by
  induction L generalizing acc with
  | nil => rfl
  | cons n rest ih =>
    simp only [List.foldl_cons]
    rw [unschedule_ok ds acc n h, ih]
    exact fun i => h i

theorem foldl_scheduled_lookup (ds : DaemonSet) (L : List String) (w : World) (id : String) :
    (L.foldl (World.scheduled ds) w).labels.lookup POD id DSIDLabel =
      if ∃ n ∈ L, id = podLabelID n ds.PodID then some ds.ID
      else w.labels.lookup POD id DSIDLabel := by
  induction L generalizing w with
  | nil => simp
  | cons n rest ih =>
    simp only [List.foldl_cons]
    rw [ih]
    by_cases h1 : ∃ m ∈ rest, id = podLabelID m ds.PodID
    · have : ∃ m ∈ n :: rest, id = podLabelID m ds.PodID := by
        obtain ⟨m, hm, e⟩ := h1
        exact ⟨m, by simp [hm], e⟩
      simp [h1, this]
    · by_cases h2 : id = podLabelID n ds.PodID
      · have : ∃ m ∈ n :: rest, id = podLabelID m ds.PodID := ⟨n, by simp, h2⟩
        simp only [h1, this, if_false, if_true]
        simp [World.scheduled, FakeStore.lookup_set, h2]
      · have : ¬∃ m ∈ n :: rest, id = podLabelID m ds.PodID := by
          rintro ⟨m, hm, e⟩
          rcases List.mem_cons.mp hm with hm | hm
          · exact h2 (hm ▸ e)
          · exact h1 ⟨m, hm, e⟩
        simp only [h1, this, if_false]
        simp [World.scheduled, FakeStore.lookup_set, h2]

theorem foldl_unscheduled_lookup (ds : DaemonSet) (L : List String) (w : World) (id : String) :
    (L.foldl (World.unscheduled ds) w).labels.lookup POD id DSIDLabel =
      if ∃ n ∈ L, id = podLabelID n ds.PodID then none
      else w.labels.lookup POD id DSIDLabel := by
  induction L generalizing w with
  | nil => simp
  | cons n rest ih =>
    simp only [List.foldl_cons]
    rw [ih]
    by_cases h1 : ∃ m ∈ rest, id = podLabelID m ds.PodID
    · have : ∃ m ∈ n :: rest, id = podLabelID m ds.PodID := by
        obtain ⟨m, hm, e⟩ := h1
        exact ⟨m, by simp [hm], e⟩
      simp [h1, this]
    · by_cases h2 : id = podLabelID n ds.PodID
      · have : ∃ m ∈ n :: rest, id = podLabelID m ds.PodID := ⟨n, by simp, h2⟩
        simp only [h1, this, if_false, if_true]
        simp [World.unscheduled, FakeStore.lookup_remove, h2]
      · have : ¬∃ m ∈ n :: rest, id = podLabelID m ds.PodID := by
          rintro ⟨m, hm, e⟩
          rcases List.mem_cons.mp hm with hm | hm
          · exact h2 (hm ▸ e)
          · exact h1 ⟨m, hm, e⟩
        simp only [h1, this, if_false]
        simp [World.unscheduled, FakeStore.lookup_remove, h2]

theorem intentAt_iff (n p : String) (e : (String × String) × Manifest) :
    intentAt n p e = true ↔ e.1.1 = n ∧ e.1.2 = p := by
  simp [intentAt]

theorem IntentStore.find_cons (e : (String × String) × Manifest) (s : IntentStore)
    (n p : String) :
    IntentStore.find (e :: s) n p =
      if intentAt n p e then some e.2 else IntentStore.find s n p := by
  unfold IntentStore.find
  rw [List.find?_cons]
  cases intentAt n p e <;> simp

theorem IntentStore.find_erase (s : IntentStore) (n n' p p' : String) :
    IntentStore.find (s.filter (fun e => !intentAt n p e)) n' p' =
      if n' = n ∧ p' = p then none else IntentStore.find s n' p' := by
  induction s with
  | nil => simp [IntentStore.find]
  | cons e s ih =>
    by_cases h : intentAt n p e = true
    · rw [List.filter_cons_of_neg (by simp [h]), ih, IntentStore.find_cons]
      by_cases h' : n' = n ∧ p' = p
      · simp [h']
      · have : intentAt n' p' e = false := by
          rw [intentAt_iff] at h
          rw [Bool.eq_false_iff, Ne, intentAt_iff]
          rintro ⟨a, b⟩
          exact h' ⟨a ▸ h.1, b ▸ h.2⟩
        simp [h', this]
    · rw [List.filter_cons_of_pos (by simp [h]), IntentStore.find_cons, ih,
        IntentStore.find_cons]
      by_cases h' : n' = n ∧ p' = p
      · obtain ⟨a, b⟩ := h'
        subst a b
        simp [h]
      · simp [h']

theorem IntentStore.find_SetPod (s : IntentStore) (n n' p' : String) (m : Manifest) :
    (s.SetPod n m).find n' p' =
      if n' = n ∧ p' = m.id then some m else s.find n' p' := by
  unfold IntentStore.SetPod
  rw [IntentStore.find_cons, IntentStore.find_erase]
  by_cases h : n' = n ∧ p' = m.id
  · obtain ⟨a, b⟩ := h
    subst a b
    simp [intentAt]
  · have : intentAt n' p' ((n, m.id), m) = false := by
      rw [Bool.eq_false_iff, Ne, intentAt_iff]
      rintro ⟨a, b⟩
      exact h ⟨a.symm, b.symm⟩
    simp [h, this]

theorem IntentStore.find_DeletePod (s : IntentStore) (n n' p p' : String) :
    (s.DeletePod n p).find n' p' = if n' = n ∧ p' = p then none else s.find n' p' :=
  IntentStore.find_erase s n n' p p'

theorem IntentStore.nodup_SetPod (s : IntentStore) (n : String) (m : Manifest)
    (h : (s.map Prod.fst).Nodup) : ((s.SetPod n m).map Prod.fst).Nodup := by
  unfold IntentStore.SetPod
  rw [List.map_cons, List.nodup_cons]
  refine ⟨?_, (List.filter_sublist s).map Prod.fst |>.nodup h⟩
  simp only [List.mem_map, List.mem_filter, not_exists, not_and]
  rintro e ⟨_, he⟩ hk
  have : intentAt n m.id e = true := by
    rw [intentAt_iff, hk]
    exact ⟨rfl, rfl⟩
  simp [this] at he

theorem IntentStore.nodup_DeletePod (s : IntentStore) (n p : String)
    (h : (s.map Prod.fst).Nodup) : ((s.DeletePod n p).map Prod.fst).Nodup :=
  ((List.filter_sublist s).map Prod.fst).nodup h

theorem foldl_scheduled_find (ds : DaemonSet) (L : List String) (w : World) (n p : String) :
    (L.foldl (World.scheduled ds) w).intent.find n p =
      if n ∈ L ∧ p = ds.Manifest.id then some ds.Manifest else w.intent.find n p := by
  induction L generalizing w with
  | nil => simp
  | cons m rest ih =>
    simp only [List.foldl_cons]
    rw [ih]
    by_cases h1 : n ∈ rest ∧ p = ds.Manifest.id
    · have : n ∈ m :: rest ∧ p = ds.Manifest.id := ⟨by simp [h1.1], h1.2⟩
      simp [h1, this]
    · by_cases h2 : n = m ∧ p = ds.Manifest.id
      · have : n ∈ m :: rest ∧ p = ds.Manifest.id := ⟨by simp [h2.1], h2.2⟩
        simp only [h1, this, if_false, and_self, if_true]
        simp [World.scheduled, IntentStore.find_SetPod, h2]
      · have : ¬(n ∈ m :: rest ∧ p = ds.Manifest.id) := by
          rintro ⟨hm, e⟩
          rcases List.mem_cons.mp hm with hm | hm
          · exact h2 ⟨hm, e⟩
          · exact h1 ⟨hm, e⟩
        simp only [h1, this, if_false]
        simp [World.scheduled, IntentStore.find_SetPod, h2]

theorem foldl_unscheduled_find (ds : DaemonSet) (L : List String) (w : World) (n p : String) :
    (L.foldl (World.unscheduled ds) w).intent.find n p =
      if n ∈ L ∧ p = ds.PodID then none else w.intent.find n p := by
  induction L generalizing w with
  | nil => simp
  | cons m rest ih =>
    simp only [List.foldl_cons]
    rw [ih]
    by_cases h1 : n ∈ rest ∧ p = ds.PodID
    · have : n ∈ m :: rest ∧ p = ds.PodID := ⟨by simp [h1.1], h1.2⟩
      simp [h1, this]
    · by_cases h2 : n = m ∧ p = ds.PodID
      · have : n ∈ m :: rest ∧ p = ds.PodID := ⟨by simp [h2.1], h2.2⟩
        simp only [h1, this, if_false, and_self, if_true]
        simp [World.unscheduled, IntentStore.find_DeletePod, h2]
      · have : ¬(n ∈ m :: rest ∧ p = ds.PodID) := by
          rintro ⟨hm, e⟩
          rcases List.mem_cons.mp hm with hm | hm
          · exact h2 ⟨hm, e⟩
          · exact h1 ⟨hm, e⟩
        simp only [h1, this, if_false]
        simp [World.unscheduled, IntentStore.find_DeletePod, h2]

theorem foldl_scheduled_nodup (ds : DaemonSet) (L : List String) (w : World)
    (h : (w.intent.map Prod.fst).Nodup) :
    ((L.foldl (World.scheduled ds) w).intent.map Prod.fst).Nodup := by
  induction L generalizing w with
  | nil => exact h
  | cons m rest ih =>
    simp only [List.foldl_cons]
    exact ih _ (IntentStore.nodup_SetPod _ _ _ h)

theorem foldl_unscheduled_nodup (ds : DaemonSet) (L : List String) (w : World)
    (h : (w.intent.map Prod.fst).Nodup) :
    ((L.foldl (World.unscheduled ds) w).intent.map Prod.fst).Nodup := by
  induction L generalizing w with
  | nil => exact h
  | cons m rest ih =>
    simp only [List.foldl_cons]
    exact ih _ (IntentStore.nodup_DeletePod _ _ _ h)

theorem FakeStore.labelsOf_eq (s : FakeStore) (t : LabelType) (id : String) :
    s.labelsOf t id =
      ((s.filter (fun e => e.labelType = t)).filter (fun e => e.id = id)).map
        (fun e => (e.key, e.value)) := by
  unfold FakeStore.labelsOf
  rw [List.filter_filter]
  congr 1
  apply List.filter_congr
  intro e _
  simp [Entry.isOf, Bool.and_comm]

theorem FakeStore.matching_congr (s s' : FakeStore) (sel : Selector) (t : LabelType)
    (h : s.filter (fun e => e.labelType = t) = s'.filter (fun e => e.labelType = t)) :
    s.matching sel t = s'.matching sel t := by
  have hl : ∀ id, s.labelsOf t id = s'.labelsOf t id := by
    intro id
    rw [FakeStore.labelsOf_eq, FakeStore.labelsOf_eq, h]
  unfold FakeStore.matching FakeStore.ids
  rw [h]
  simp only [hl]

theorem FakeStore.filter_erase_other (s : FakeStore) (t t' : LabelType) (id k : String)
    (h : t' ≠ t) :
    (s.filter (fun e => !e.isAt t' id k)).filter (fun e => e.labelType = t) =
      s.filter (fun e => e.labelType = t) := by
  rw [List.filter_filter]
  apply List.filter_congr
  intro e _
  by_cases he : e.labelType = t
  · have : e.isAt t' id k = false := by
      rw [Bool.eq_false_iff, Ne, Entry.isAt_iff]
      rintro ⟨a, _⟩
      exact h (a ▸ he)
    simp [he, this]
  · simp [he]

theorem FakeStore.filter_set_other (s : FakeStore) (t t' : LabelType) (id k v : String)
    (h : t' ≠ t) :
    (s.set t' id k v).filter (fun e => e.labelType = t) =
      s.filter (fun e => e.labelType = t) := by
  unfold FakeStore.set
  rw [List.filter_cons_of_neg (by simpa using h), FakeStore.filter_erase_other s t t' id k h]

theorem FakeStore.filter_remove_other (s : FakeStore) (t t' : LabelType) (id k : String)
    (h : t' ≠ t) :
    (s.remove t' id k).filter (fun e => e.labelType = t) =
      s.filter (fun e => e.labelType = t) :=
  FakeStore.filter_erase_other s t t' id k h

theorem POD_ne_NODE : POD ≠ NODE := by decide

theorem foldl_scheduled_nodes (ds : DaemonSet) (L : List String) (w : World) :
    (L.foldl (World.scheduled ds) w).labels.filter (fun e => e.labelType = NODE) =
      w.labels.filter (fun e => e.labelType = NODE) := by
  induction L generalizing w with
  | nil => rfl
  | cons m rest ih =>
    simp only [List.foldl_cons]
    rw [ih]
    exact FakeStore.filter_set_other _ _ _ _ _ _ POD_ne_NODE

theorem foldl_unscheduled_nodes (ds : DaemonSet) (L : List String) (w : World) :
    (L.foldl (World.unscheduled ds) w).labels.filter (fun e => e.labelType = NODE) =
      w.labels.filter (fun e => e.labelType = NODE) := by
  induction L generalizing w with
  | nil => rfl
  | cons m rest ih =>
    simp only [List.foldl_cons]
    rw [ih]
    exact FakeStore.filter_remove_other _ _ _ _ _ POD_ne_NODE

theorem World.GetMatches_ok (w : World) (sel : Selector) (t : LabelType) (h : w.NoFaults) :
    w.GetMatches sel t = (some (w.labels.matching sel t), { w with clock := w.clock + 1 }) := by
  simp [World.GetMatches, World.call, h w.clock]

/-- The desired set a tick works with when no read fails. -/
theorem tick_ok (r : Reconciler) (w : World) (h : w.NoFaults) :
    ∃ w0 : World, w0.labels = w.labels ∧ w0.intent = w.intent ∧ w0.faults = w.faults ∧
      (tick r w).world =
        ((currentNodes r.ds w).filter (fun n =>
            !(frozen r (if r.phase = .Active then matchingNodes r.ds w else [])
              (currentNodes r.ds w)).contains n)).foldl (World.unscheduled r.ds)
          (((frozen r (if r.phase = .Active then matchingNodes r.ds w else [])
              (currentNodes r.ds w)).filter
            (fun n => !(currentNodes r.ds w).contains n)).foldl (World.scheduled r.ds) w0) ∧
      (tick r w).errors = [] ∧
      (tick r w).exit = (decide (r.phase = .TerminalTearDown) &&
        ((currentNodes r.ds w).filter (fun n =>
            !(frozen r (if r.phase = .Active then matchingNodes r.ds w else [])
              (currentNodes r.ds w)).contains n)).isEmpty) := by
  by_cases hA : r.phase = .Active
  · have hF1 : World.NoFaults { w with clock := w.clock + 1 } := fun i => h i
    refine ⟨{ w with clock := w.clock + 1 + 1 }, rfl, rfl, rfl, ?_⟩
    have hF2 : World.NoFaults { w with clock := w.clock + 1 + 1 } := fun i => h i
    simp only [tick, desiredNodes, hA, if_true, World.GetMatches_ok w _ _ h, Option.map_some',
      World.GetMatches_ok _ _ _ hF1]
    rw [foldl_schedule_ok _ _ _ hF2, foldl_unschedule_ok _ _ _
      (by intro i; rw [foldl_scheduled_faults]; exact h i)]
    exact ⟨rfl, rfl, rfl⟩
  · refine ⟨{ w with clock := w.clock + 1 }, rfl, rfl, rfl, ?_⟩
    have hF1 : World.NoFaults { w with clock := w.clock + 1 } := fun i => h i
    simp only [tick, desiredNodes, hA, if_false, World.GetMatches_ok w _ _ h]
    rw [foldl_schedule_ok _ _ _ hF1, foldl_unschedule_ok _ _ _
      (by intro i; rw [foldl_scheduled_faults]; exact h i)]
    exact ⟨rfl, rfl, rfl⟩

theorem IntentStore.count_eq (s : IntentStore) (n p : String) (h : s.WellFormed) :
    s.count n p = if (s.find n p).isSome then 1 else 0 := by
  induction s with
  | nil => rfl
  | cons e s ih =>
    unfold IntentStore.WellFormed at h
    rw [List.map_cons, List.nodup_cons] at h
    have ih' := ih h.2
    unfold IntentStore.count at ih' ⊢
    rw [IntentStore.find_cons]
    by_cases he : intentAt n p e = true
    · rw [List.filter_cons_of_pos he]
      have hnone : IntentStore.find s n p = none := by
        cases hf : IntentStore.find s n p with
        | none => rfl
        | some m =>
          exfalso
          unfold IntentStore.find at hf
          cases hq : List.find? (intentAt n p) s with
          | none => simp [hq] at hf
          | some e' =>
            have hm := List.mem_of_find?_eq_some hq
            have hp := List.find?_some hq
            rw [intentAt_iff] at he hp
            apply h.1
            rw [List.mem_map]
            exact ⟨e', hm, Prod.ext (hp.1.trans he.1.symm) (hp.2.trans he.2.symm)⟩
      rw [hnone] at ih'
      simp only [Option.isSome_none, Bool.false_eq_true, if_false] at ih'
      simp [he, ih']
    · rw [List.filter_cons_of_neg he]
      simp [he, ih']

theorem mem_currentNodes (ds : DaemonSet) (w : World) (hW : w.AuthoredBy ds) (n : String) :
    n ∈ currentNodes ds w ↔
      w.labels.lookup POD (podLabelID n ds.PodID) DSIDLabel = some ds.ID := by
  unfold currentNodes scheduledPods
  constructor
  · intro h
    obtain ⟨l, hl, rfl⟩ := List.mem_map.mp h
    have hid : l.ID ∈ (w.labels.matching (dsSelector ds.ID) POD).map (fun l => l.ID) :=
      List.mem_map.mpr ⟨l, hl, rfl⟩
    rw [FakeStore.mem_matching_ds] at hid
    rw [← hW.1 l.ID hid]
    exact hid
  · intro h
    rw [← FakeStore.mem_matching_ds] at h
    obtain ⟨l, hl, he⟩ := List.mem_map.mp h
    refine List.mem_map.mpr ⟨l, hl, ?_⟩
    show stripPodID ds.PodID l.ID = n
    rw [he, stripPodID_podLabelID]

/-- The pod label of node `n` after the two loops of a tick. -/
theorem lookup_after (ds : DaemonSet) (A R : List String) (w0 : World) (n : String) :
    ((R.foldl (World.unscheduled ds) (A.foldl (World.scheduled ds) w0)).labels.lookup POD
        (podLabelID n ds.PodID) DSIDLabel) =
      if n ∈ R then none
      else if n ∈ A then some ds.ID
      else w0.labels.lookup POD (podLabelID n ds.PodID) DSIDLabel := by
  have e : ∀ L : List String, (∃ m ∈ L, podLabelID n ds.PodID = podLabelID m ds.PodID) ↔ n ∈ L := by
    intro L
    constructor
    · rintro ⟨m, hm, h⟩
      rw [podLabelID_inj h]
      exact hm
    · exact fun h => ⟨n, h, rfl⟩
  rw [foldl_unscheduled_lookup, foldl_scheduled_lookup]
  simp only [e]

/-- The intent entry of node `n` after the two loops of a tick. -/
theorem find_after (ds : DaemonSet) (A R : List String) (w0 : World) (n : String)
    (hM : ds.Manifest.id = ds.PodID) :
    ((R.foldl (World.unscheduled ds) (A.foldl (World.scheduled ds) w0)).intent.find n
        ds.PodID) =
      if n ∈ R then none
      else if n ∈ A then some ds.Manifest
      else w0.intent.find n ds.PodID := by
  rw [foldl_unscheduled_find, foldl_scheduled_find]
  simp [hM]

/-- What one tick without faults achieves, in every phase: the nodes carrying
the pod label, and the nodes holding an intent entry, are the desired set. -/
theorem tick_post (r : Reconciler) (w : World) (hF : w.NoFaults)
    (hW : w.AuthoredBy r.ds) (hM : r.ds.Manifest.id = r.ds.PodID) :
    (∀ n, (tick r w).world.labels.lookup POD (podLabelID n r.ds.PodID) DSIDLabel =
        some r.ds.ID ↔ n ∈ desiredSet r w) ∧
    (∀ n, ((tick r w).world.intent.find n r.ds.PodID).isSome ↔ n ∈ desiredSet r w) ∧
    (∀ id, (tick r w).world.labels.lookup POD id DSIDLabel = some r.ds.ID →
      id = podLabelID (stripPodID r.ds.PodID id) r.ds.PodID) ∧
    ((tick r w).world.labels.filter (fun e => e.labelType = NODE) =
      w.labels.filter (fun e => e.labelType = NODE)) ∧
    (tick r w).world.faults = w.faults ∧
    (w.intent.WellFormed → (tick r w).world.intent.WellFormed) ∧
    (tick r w).errors = [] ∧
    ((tick r w).exit = (decide (r.phase = .TerminalTearDown) &&
      ((currentNodes r.ds w).filter (fun n => !(desiredSet r w).contains n)).isEmpty)) := by
  obtain ⟨w0, hl, hi, hf, hw, he, hx⟩ := tick_ok r w hF
  have hcur := mem_currentNodes r.ds w hW
  have hR : ∀ n, n ∈ (currentNodes r.ds w).filter (fun n => !(desiredSet r w).contains n) ↔
      n ∈ currentNodes r.ds w ∧ n ∉ desiredSet r w := by
    intro n; simp [List.mem_filter]
  have hA : ∀ n, n ∈ (desiredSet r w).filter (fun n => !(currentNodes r.ds w).contains n) ↔
      n ∈ desiredSet r w ∧ n ∉ currentNodes r.ds w := by
    intro n; simp [List.mem_filter]
  have hw' : (tick r w).world =
      ((currentNodes r.ds w).filter (fun n => !(desiredSet r w).contains n)).foldl
        (World.unscheduled r.ds)
        (((desiredSet r w).filter (fun n => !(currentNodes r.ds w).contains n)).foldl
          (World.scheduled r.ds) w0) := hw
  refine ⟨fun n => ?_, fun n => ?_, fun id hid => ?_, ?_, ?_, fun hwf => ?_, he, hx⟩
  · rw [hw', lookup_after, hl]
    by_cases h1 : n ∈ (currentNodes r.ds w).filter (fun n => !(desiredSet r w).contains n)
    · simp only [h1, if_true]
      simp [((hR n).mp h1).2]
    · by_cases h2 : n ∈ (desiredSet r w).filter (fun n => !(currentNodes r.ds w).contains n)
      · simp only [h1, h2, if_true, if_false]
        simp [((hA n).mp h2).1]
      · simp only [h1, h2, if_false]
        rw [← hcur n]
        rw [hR] at h1
        rw [hA] at h2
        constructor
        · intro hc
          by_contra hd
          exact h1 ⟨hc, hd⟩
        · intro hd
          by_contra hc
          exact h2 ⟨hd, hc⟩
  · rw [hw', find_after _ _ _ _ _ hM, hi]
    by_cases h1 : n ∈ (currentNodes r.ds w).filter (fun n => !(desiredSet r w).contains n)
    · simp only [h1, if_true]
      simp [((hR n).mp h1).2]
    · by_cases h2 : n ∈ (desiredSet r w).filter (fun n => !(currentNodes r.ds w).contains n)
      · simp only [h1, h2, if_true, if_false]
        simp [((hA n).mp h2).1]
      · simp only [h1, h2, if_false]
        rw [hW.2 n, ← hcur n]
        rw [hR] at h1
        rw [hA] at h2
        constructor
        · intro hc
          by_contra hd
          exact h1 ⟨hc, hd⟩
        · intro hd
          by_contra hc
          exact h2 ⟨hd, hc⟩
  · rw [hw', foldl_unscheduled_lookup, foldl_scheduled_lookup, hl] at hid
    split at hid
    · cases hid
    · split at hid
      · rename_i h
        obtain ⟨m, _, hm⟩ := h
        rw [hm, stripPodID_podLabelID]
      · exact hW.1 id hid
  · rw [hw', foldl_unscheduled_nodes, foldl_scheduled_nodes, hl]
  · rw [hw', foldl_unscheduled_faults, foldl_scheduled_faults, hf]
  · rw [hw']
    apply foldl_unscheduled_nodup
    apply foldl_scheduled_nodup
    rw [hi]
    exact hwf

theorem desiredSet_active (r : Reconciler) (w : World) (hA : r.phase = .Active) :
    desiredSet r w = matchingNodes r.ds w := by
  simp [desiredSet, frozen, hA]

theorem desiredSet_disabled (r : Reconciler) (w : World) (hD : r.phase = .Disabled) :
    desiredSet r w = currentNodes r.ds w := by
  simp [desiredSet, frozen, hD]

theorem desiredSet_teardown (r : Reconciler) (w : World) (hT : r.phase = .TerminalTearDown) :
    desiredSet r w = [] := by
  simp [desiredSet, frozen, hT]

/-- A tick without faults keeps the pod labels and intent entries those of
the reconciler. -/
theorem tick_preserves_AuthoredBy (r : Reconciler) (w : World) (hF : w.NoFaults)
    (hW : w.AuthoredBy r.ds) (hM : r.ds.Manifest.id = r.ds.PodID) :
    (tick r w).world.AuthoredBy r.ds ∧ (tick r w).world.NoFaults := by
  obtain ⟨h1, h2, h3, _, h5, _⟩ := tick_post r w hF hW hM
  refine ⟨⟨h3, fun n => ?_⟩, fun i => ?_⟩
  · rw [h1 n, h2 n]
  · rw [h5]; exact hF i

/-- The scheduled set, as `scheduledPods` reads it, after a tick without
faults. -/
theorem scheduledPods_after_tick (r : Reconciler) (w : World) (hF : w.NoFaults)
    (hW : w.AuthoredBy r.ds) (hM : r.ds.Manifest.id = r.ds.PodID) (id : String) :
    id ∈ (scheduledPods r.ds.ID (tick r w).world).map (fun l => l.ID) ↔
      ∃ n ∈ desiredSet r w, id = podLabelID n r.ds.PodID := by
  obtain ⟨h1, _, h3, _⟩ := tick_post r w hF hW hM
  unfold scheduledPods
  rw [FakeStore.mem_matching_ds]
  constructor
  · intro h
    have hform := h3 id h
    refine ⟨stripPodID r.ds.PodID id, ?_, hform⟩
    rw [← h1, ← hform]
    exact h
  · rintro ⟨n, hn, rfl⟩
    exact (h1 n).mpr hn

/-- C1: one tick of an active reconciler in which every call succeeds leaves
the scheduled set equal to the desired set: a node carries the pod label
`DSIDLabel == ID` on pod id `"<n>/<PodID>"` exactly when it matches
`NodeSelector`; a matching node holds exactly one intent entry `(n, PodID)` and
a non-matching node none; the pods `scheduledPods` returns are the pods of the
matching nodes, each once; the tick does not change which nodes match. -/
theorem C1_tick_schedules_exactly_the_matching_nodes (r : Reconciler) (w : World)
    (hA : r.phase = .Active) (hM : r.ds.Manifest.id = r.ds.PodID)
    (hF : w.NoFaults) (hW : w.AuthoredBy r.ds) (hN : w.intent.WellFormed) :
    (∀ n, (tick r w).world.labels.lookup POD (podLabelID n r.ds.PodID) DSIDLabel =
        some r.ds.ID ↔ n ∈ matchingNodes r.ds w) ∧
    (∀ n, (tick r w).world.intent.count n r.ds.PodID =
        if n ∈ matchingNodes r.ds w then 1 else 0) ∧
    ((scheduledPods r.ds.ID (tick r w).world).map (fun l => l.ID)).Perm
      ((matchingNodes r.ds w).map (fun n => podLabelID n r.ds.PodID)) ∧
    matchingNodes r.ds (tick r w).world = matchingNodes r.ds w ∧
    (tick r w).errors = [] := by
  obtain ⟨h1, h2, _, h4, _, h6, h7, _⟩ := tick_post r w hF hW hM
  rw [desiredSet_active r w hA] at h1 h2
  refine ⟨h1, fun n => ?_, ?_, ?_, h7⟩
  · rw [IntentStore.count_eq _ _ _ (h6 hN)]
    by_cases hn : n ∈ matchingNodes r.ds w
    · simp [hn, (h2 n).mpr hn]
    · have : ¬ ((tick r w).world.intent.find n r.ds.PodID).isSome = true :=
        fun h => hn ((h2 n).mp h)
      simp [hn, this]
  · have hd1 : ((scheduledPods r.ds.ID (tick r w).world).map (fun l => l.ID)).Nodup :=
      FakeStore.nodup_matching _ _ _
    have hd2 : ((matchingNodes r.ds w).map (fun n => podLabelID n r.ds.PodID)).Nodup :=
      (FakeStore.nodup_matching _ _ _).map_on (fun x _ y _ h => podLabelID_inj h)
    rw [List.perm_ext_iff_of_nodup hd1 hd2]
    intro id
    rw [scheduledPods_after_tick r w hF hW hM id, desiredSet_active r w hA, List.mem_map]
    constructor
    · rintro ⟨n, hn, rfl⟩
      exact ⟨n, hn, rfl⟩
    · rintro ⟨n, hn, rfl⟩
      exact ⟨n, hn, rfl⟩
  · unfold matchingNodes
    rw [FakeStore.matching_congr _ _ _ _ h4]

theorem World.GetMatches_stores (w : World) (sel : Selector) (t : LabelType) :
    (w.GetMatches sel t).2.labels = w.labels ∧ (w.GetMatches sel t).2.intent = w.intent := by
  cases h : w.faults w.clock <;> simp [World.GetMatches, World.call, h]

theorem filter_not_contains_self (L : List String) :
    L.filter (fun n => !L.contains n) = [] := by
  rw [List.filter_eq_nil_iff]
  intro n hn
  simp [hn]

/-- A tick of a disabled reconciler writes nothing, whether or not calls
fail. -/
theorem tick_disabled (r : Reconciler) (w : World) (hD : r.phase = .Disabled) :
    (tick r w).world.labels = w.labels ∧ (tick r w).world.intent = w.intent := by
  have hA : ¬ r.phase = .Active := by rw [hD]; decide
  obtain ⟨g1, g2⟩ := World.GetMatches_stores w (dsSelector r.ds.ID) POD
  simp only [tick, desiredNodes, hA, if_false]
  split
  · exact ⟨g1, g2⟩
  · simp only [frozen, hD, if_true, filter_not_contains_self, List.foldl_nil]
    exact ⟨g1, g2⟩

/-- C4: the tick that handles an update with `Disabled = true`, whatever
selector the update carries and whether or not calls fail, leaves the pod
labels and the intent entries as they were. -/
theorem C4_disable_update_changes_nothing (fuel : Nat) (r : Reconciler) (w : World)
    (newDS : DaemonSet) (hD : newDS.Disabled = true) :
    (step fuel r w (.updated newDS)).world.labels = w.labels ∧
    (step fuel r w (.updated newDS)).world.intent = w.intent := by
  simp only [step]
  by_cases hM : newDS.Manifest.id ≠ newDS.PodID
  · rw [if_pos hM]
    exact ⟨rfl, rfl⟩
  · rw [if_neg hM]
    simp only [hD, if_true]
    exact tick_disabled ⟨newDS, .Disabled⟩ w rfl

/-- No pod carries the label of the daemon set and no node holds an intent
entry for its pod. -/
theorem tick_teardown (r : Reconciler) (w : World) (hT : r.phase = .TerminalTearDown)
    (hF : w.NoFaults) (hW : w.AuthoredBy r.ds) (hM : r.ds.Manifest.id = r.ds.PodID) :
    (∀ id, (tick r w).world.labels.lookup POD id DSIDLabel ≠ some r.ds.ID) ∧
    (∀ n, (tick r w).world.intent.find n r.ds.PodID = none) ∧
    (tick r w).errors = [] ∧
    (tick r w).exit = (currentNodes r.ds w).isEmpty := by
  obtain ⟨h1, h2, h3, _, _, _, h7, h8⟩ := tick_post r w hF hW hM
  rw [desiredSet_teardown r w hT] at h1 h2 h8
  refine ⟨fun id hid => ?_, fun n => ?_, h7, ?_⟩
  · have hform := h3 id hid
    rw [hform] at hid
    simpa using (h1 _).mp hid
  · cases hf : (tick r w).world.intent.find n r.ds.PodID with
    | none => rfl
    | some m => simpa using (h2 n).mp (by rw [hf]; rfl)
  · rw [h8]
    simp [hT]

theorem currentNodes_of_clean (ds : DaemonSet) (w : World)
    (h : ∀ id, w.labels.lookup POD id DSIDLabel ≠ some ds.ID) :
    scheduledPods ds.ID w = [] ∧ currentNodes ds w = [] := by
  have : scheduledPods ds.ID w = [] := by
    rw [List.eq_nil_iff_forall_not_mem]
    intro l hl
    have hid : l.ID ∈ (w.labels.matching (dsSelector ds.ID) POD).map (fun l => l.ID) :=
      List.mem_map.mpr ⟨l, hl, rfl⟩
    rw [FakeStore.mem_matching_ds] at hid
    exact h _ hid
  exact ⟨this, by simp [currentNodes, this]⟩

theorem drain_teardown (r : Reconciler) (fuel : Nat) (w : World) (errs : List Err)
    (hT : r.phase = .TerminalTearDown)
    (hF : w.NoFaults) (hW : w.AuthoredBy r.ds) (hM : r.ds.Manifest.id = r.ds.PodID) :
    (drain r (fuel + 2) w errs).1 = true ∧
    (∀ id, (drain r (fuel + 2) w errs).2.1.labels.lookup POD id DSIDLabel ≠ some r.ds.ID) ∧
    (∀ n, (drain r (fuel + 2) w errs).2.1.intent.find n r.ds.PodID = none) ∧
    (drain r (fuel + 2) w errs).2.2 = errs := by
  obtain ⟨a1, a2, a3, a4⟩ := tick_teardown r w hT hF hW hM
  obtain ⟨hW1, hF1⟩ := tick_preserves_AuthoredBy r w hF hW hM
  obtain ⟨b1, b2, b3, b4⟩ := tick_teardown r (tick r w).world hT hF1 hW1 hM
  rw [(currentNodes_of_clean r.ds _ a1).2] at b4
  cases hx : (tick r w).exit with
  | true =>
    simp only [drain, hx, if_true, a3, List.append_nil]
    exact ⟨trivial, a1, a2, trivial⟩
  | false =>
    simp only [drain, hx, Bool.false_eq_true, if_false, a3, List.append_nil, b4,
      List.isEmpty_nil, if_true, b3]
    exact ⟨trivial, b1, b2, trivial⟩

/-- C5: when the deleted signal arrives, from the active or the disabled
state, and no call fails, the tear-down loop exits within two ticks and leaves
no pod label `DSIDLabel == ID`, no intent entry `(n, PodID)`, and an empty
scheduled set. -/
theorem C5_delete_unschedules_every_node (fuel : Nat) (r : Reconciler) (w : World)
    (hF : w.NoFaults) (hW : w.AuthoredBy r.ds) (hM : r.ds.Manifest.id = r.ds.PodID) :
    (step (fuel + 2) r w .deleted).reconciler.phase = .Exited ∧
    (∀ id, (step (fuel + 2) r w .deleted).world.labels.lookup POD id DSIDLabel ≠
      some r.ds.ID) ∧
    (∀ n, (step (fuel + 2) r w .deleted).world.intent.find n r.ds.PodID = none) ∧
    scheduledPods r.ds.ID (step (fuel + 2) r w .deleted).world = [] ∧
    (step (fuel + 2) r w .deleted).errors = [] := by
  obtain ⟨d1, d2, d3, d4⟩ :=
    drain_teardown { r with phase := .TerminalTearDown } fuel w [] rfl hF hW hM
  simp only [step]
  refine ⟨by simp [d1], d2, d3, (currentNodes_of_clean r.ds _ d2).1, d4⟩

theorem FakeStore.lookup_of_no_type (s : FakeStore) (t : LabelType) (id k : String)
    (h : ∀ e ∈ s, e.labelType ≠ t) : s.lookup t id k = none := by
  induction s with
  | nil => rfl
  | cons e s ih =>
    rw [FakeStore.lookup_cons]
    have : e.isAt t id k = false := by
      rw [Bool.eq_false_iff, Ne, Entry.isAt_iff]
      rintro ⟨a, _⟩
      exact h e (by simp) a
    simp only [this, Bool.false_eq_true, if_false]
    exact ih (fun e' he' => h e' (by simp [he']))

/-- A world without pod labels and without intent entries is, trivially, the
work of any reconciler. -/
theorem AuthoredBy_of_nothing_scheduled (w : World) (ds : DaemonSet)
    (hl : ∀ e ∈ w.labels, e.labelType ≠ POD) (hi : w.intent = []) : w.AuthoredBy ds := by
  refine ⟨fun id h => ?_, fun n => ?_⟩
  · rw [FakeStore.lookup_of_no_type _ _ _ _ hl] at h
    cases h
  · rw [FakeStore.lookup_of_no_type _ _ _ _ hl, hi]
    simp [IntentStore.find]

theorem testWorld_AuthoredBy : testWorld.AuthoredBy testDS :=
  AuthoredBy_of_nothing_scheduled _ _ (by decide) rfl

theorem fleetWorld_AuthoredBy (ds : DaemonSet) : fleetWorld.AuthoredBy ds :=
  AuthoredBy_of_nothing_scheduled _ _ (by decide) rfl

theorem everywhereWorld_AuthoredBy :
    everywhereWorld.AuthoredBy everywhereDS ∧ everywhereWorld.NoFaults :=
  tick_preserves_AuthoredBy ⟨everywhereDS, .Active⟩ fleetWorld (fun _ => rfl)
    (fleetWorld_AuthoredBy _) rfl

set_option maxRecDepth 100000 in
/-- Witness of C1: the first scenario of `TestSchedule`: with `node1` bad and
`node2` good, one tick labels the single pod `node2/testPod` and writes the
single intent entry `intent/node2/testPod`. -/
theorem C1_tick_schedules_exactly_the_matching_nodes_witness :
    ((scheduledPods testDS.ID (tick (New testDS) testWorld).world).map (fun l => l.ID)).Perm
      ["node2/testPod"] ∧
    (tick (New testDS) testWorld).world.intent.count "node2" "testPod" = 1 ∧
    (tick (New testDS) testWorld).world.intent.count "node1" "testPod" = 0 ∧
    (tick (New testDS) testWorld).world.intent.AllPods.map (fun p => p.Path) =
      ["intent/node2/testPod"] :=
  have h := C1_tick_schedules_exactly_the_matching_nodes (New testDS) testWorld rfl rfl
    (fun _ => rfl) testWorld_AuthoredBy List.nodup_nil
  ⟨h.2.2.1, (h.2.1 "node2").trans (by decide), (h.2.1 "node1").trans (by decide), by decide⟩

set_option maxRecDepth 100000 in
/-- Witness of C4: the fourth scenario of `TestSchedule`: with only `nodeOk`
scheduled, the update to a disabled daemon set whose selector
`nodeQuality=good` matches 12 nodes leaves the one scheduled pod and the one
intent entry. -/
theorem C4_disable_update_changes_nothing_witness :
    (matchingNodes disabledDS cherryWorld).length = 12 ∧
    (scheduledPods "ds-1"
        (step 0 ⟨cherryDS, .Active⟩ cherryWorld (.updated disabledDS)).world).map
      (fun l => l.ID) = ["nodeOk/testPod"] ∧
    (step 0 ⟨cherryDS, .Active⟩ cherryWorld (.updated disabledDS)).world.intent.AllPods.map
      (fun p => p.Path) = ["intent/nodeOk/testPod"] :=
  have h := C4_disable_update_changes_nothing 0 ⟨cherryDS, .Active⟩ cherryWorld disabledDS rfl
  ⟨by decide, by rw [scheduledPods, h.1]; decide, by rw [h.2]; decide⟩

set_option maxRecDepth 100000 in
/-- Witness of C5: the sixth scenario of `TestSchedule`: with all 23 nodes
scheduled, the deleted signal leaves no labelled pod and no intent entry. -/
theorem C5_delete_unschedules_every_node_witness :
    (scheduledPods "ds-1" everywhereWorld).length = 23 ∧
    everywhereWorld.intent.AllPods.length = 23 ∧
    (step 2 ⟨everywhereDS, .Active⟩ everywhereWorld .deleted).reconciler.phase = .Exited ∧
    scheduledPods "ds-1" (step 2 ⟨everywhereDS, .Active⟩ everywhereWorld .deleted).world = [] ∧
    (step 2 ⟨everywhereDS, .Active⟩ everywhereWorld .deleted).world.intent.find "nodeOk"
      "testPod" = none :=
  have h := C5_delete_unschedules_every_node 0 ⟨everywhereDS, .Active⟩ everywhereWorld
    everywhereWorld_AuthoredBy.2 everywhereWorld_AuthoredBy.1 rfl
  ⟨by decide, by decide, h.1, h.2.2.2.1, h.2.2.1 "nodeOk"⟩

set_option maxRecDepth 100000 in
/-- With the empty desired set, which step 1 of the algorithm read on its own
gives for a disabled record as it does for tear-down, a tick on the world of
the fourth scenario removes the pod of `nodeOk`; the frozen desired set of the
state-machine table is what keeps it. -/
theorem empty_desired_set_unschedules :
    (scheduledPods "ds-1" (tick ⟨disabledDS, .TerminalTearDown⟩ cherryWorld).world).map
      (fun l => l.ID) = [] ∧
    (scheduledPods "ds-1" (tick ⟨disabledDS, .Disabled⟩ cherryWorld).world).map
      (fun l => l.ID) = ["nodeOk/testPod"] := by
  decide

end P2
